import Mathlib

/-!
Verification development for the result-ingestion and synchronization pipeline
of the AI Viva teacher admin panel (Next.js/TypeScript).

The TypeScript source is shallowly embedded: every definition below mirrors a
concrete function of the repository (the source file and function are named in
each doc comment).  JavaScript machine values are modelled as follows:

* instants are epoch milliseconds (`Int`); `Date` construction from local
  calendar fields takes an explicit time-zone offset `tz` in minutes east of
  UTC (the witnesses instantiate `tz := 0`, a UTC server);
* `parseInt`, first-integer regex extraction, and the two timestamp-parsing
  regexes are embedded as executable character-level scanners that follow the
  leftmost-match/greedy-with-backtracking semantics of the JavaScript regexes
  they model;
* the lenient `new Date(string)` parser is modelled (`jsDateParse`) for the
  two text shapes that actually occur in this repository's data — the
  ECMA-262 date-time format with explicit offset, and the V8 legacy
  "15 Jan 2026, 3:38 pm" day-month-year shape; all other inputs are modelled
  as an invalid date (`none`, i.e. NaN);
* remote stores are explicit values: the relational table is a list of rows,
  the spreadsheet a list of string rows, and remote failures are injected as
  explicit parameters.
-/

namespace JsRt

/-- ASCII whitespace recognized by the model of the JavaScript regex class
`\s` and of the `parseInt` leading trim (the non-ASCII members of `\s` do not
occur in the repository's data and are out of the model's scope). -/
def isWs (c : Char) : Bool :=
  c = ' ' || c = '\t' || c = '\n' || c = '\r' || c = '\x0b' || c = '\x0c'

/-- Numeric value of a list of decimal digit characters (most significant
first), as computed by `parseInt` on a pure digit string. -/
def digitsVal (l : List Char) : Nat :=
  l.foldl (fun a c => 10 * a + (c.toNat - 48)) 0

/-- Longest prefix of decimal digits together with the rest of the input. -/
def spanDigits (cs : List Char) : List Char × List Char :=
  (cs.takeWhile Char.isDigit, cs.dropWhile Char.isDigit)

/-- Digits of the first maximal decimal run in the text, if any: the capture
of the JavaScript regex `/(\d+)/` run in search mode. -/
def firstDigitRun : List Char → Option (List Char)
  | [] => none
  | c :: cs => if c.isDigit then some (c :: cs.takeWhile Char.isDigit) else firstDigitRun cs

/-- Model of `parseInt(s, 10)`: skip leading whitespace, read an optional
sign and then decimal digits; `none` models `NaN` (no digits found). -/
def jsParseInt (s : String) : Option Int :=
  let cs := s.data.dropWhile isWs
  match cs with
  | '-' :: rest =>
    let (ds, _) := spanDigits rest
    if ds = [] then none else some (-(digitsVal ds : Int))
  | '+' :: rest =>
    let (ds, _) := spanDigits rest
    if ds = [] then none else some ((digitsVal ds : Int))
  | _ =>
    let (ds, _) := spanDigits cs
    if ds = [] then none else some ((digitsVal ds : Int))

/-- Model of the JavaScript expression `x || d` on an optional string: the
default is taken when the value is absent (`undefined`) or empty (falsy). -/
def jsOrStr (o : Option String) (d : String) : String :=
  match o with
  | some s => if s = "" then d else s
  | none => d

/-- Cell access `row[i]` on a spreadsheet row, `none` when the row is short
(`undefined`). -/
def cell (row : List String) (i : Nat) : Option String :=
  row.get? i

/-- Cell access combined with a falsy default, the ubiquitous
`row[i] || dflt` idiom of the source. -/
def cellD (row : List String) (i : Nat) (dflt : String) : String :=
  jsOrStr (cell row i) dflt

/-- Character membership in a string, the model of `s.includes(c)` (written
over the character list so that it evaluates by kernel reduction). -/
def strHas (s : String) (c : Char) : Bool :=
  s.data.contains c

/-- Model of `String.prototype.toLowerCase`, character-wise (correct on the
ASCII data this repository handles). -/
def strLower (s : String) : String :=
  String.mk (s.data.map Char.toLower)

/-- Model of `String.prototype.trim` over the modelled whitespace class. -/
def jsTrim (s : String) : String :=
  String.mk (((s.data.dropWhile isWs).reverse.dropWhile isWs).reverse)

/-- Days since 1970-01-01 of the first day of a month given as year plus a
zero-based month index that may be any integer, exactly like the `MakeDay`
month normalization of the ECMAScript `Date` constructor (month 13 rolls
into the next year, and so on); the days-from-civil-date computation follows
the standard Gregorian era decomposition. -/
def daysFromCivilFirst (y m : Int) : Int :=
  let yAdj : Int := y + Int.fdiv m 12
  let mn : Int := Int.emod m 12
  let mm : Int := mn + 1
  let yy : Int := if mm ≤ 2 then yAdj - 1 else yAdj
  let era : Int := Int.fdiv yy 400
  let yoe : Int := yy - era * 400
  let doy : Int := Int.fdiv (153 * (if mm > 2 then mm - 3 else mm + 9) + 2) 5
  let doe : Int := yoe * 365 + Int.fdiv yoe 4 - Int.fdiv yoe 100 + doy
  era * 146097 + doe - 719468

/-- ECMAScript `MakeDay`: day number of calendar fields with a zero-based
month and an arbitrary day of month (out-of-range days roll over). -/
def jsMakeDay (y m d : Int) : Int :=
  daysFromCivilFirst y m + (d - 1)

/-- Epoch milliseconds of local calendar fields taken literally (zero-based
month) in a time zone `tz` minutes east of UTC — the `MakeDay`/`MakeTime`
composition without any year adjustment; the `Date` constructor model
`jsDateCtor` applies `MakeFullYear` before calling this (string parses use
the literal year). -/
def jsLocalEpoch (tz y m d h mi s ms : Int) : Int :=
  jsMakeDay y m d * 86400000 + h * 3600000 + mi * 60000 + s * 1000 + ms - tz * 60000

/-- Epoch milliseconds of UTC calendar fields (zero-based month). -/
def jsUtcEpoch (y m d h mi s ms : Int) : Int :=
  jsLocalEpoch 0 y m d h mi s ms

/-- ECMAScript `MakeFullYear`: a `Date` constructor year argument between 0
and 99 denotes 1900 + year; all other values are taken literally. -/
def jsFullYear (y : Int) : Int :=
  if 0 ≤ y ∧ y ≤ 99 then 1900 + y else y

/-- Model of `new Date(y, m, d, h, mi, s, ms)` followed by `getTime()` on a
machine with offset `tz`: `MakeFullYear` on the year argument, then the
local-field composition. -/
def jsDateCtor (tz y m d h mi s ms : Int) : Int :=
  jsLocalEpoch tz (jsFullYear y) m d h mi s ms

/-- Gregorian calendar date (year, one-based month, day) of a day number
relative to 1970-01-01; the inverse of the era decomposition above. -/
def civilFromDays (z : Int) : Int × Int × Int :=
  let z2 := z + 719468
  let era := Int.fdiv z2 146097
  let doe := z2 - era * 146097
  let yoe := Int.fdiv (doe - Int.fdiv doe 1460 + Int.fdiv doe 36524 - Int.fdiv doe 146096) 365
  let y := yoe + era * 400
  let doy := doe - (365 * yoe + Int.fdiv yoe 4 - Int.fdiv yoe 100)
  let mp := Int.fdiv (5 * doy + 2) 153
  let d := doy - Int.fdiv (153 * mp + 2) 5 + 1
  let m := if mp < 10 then mp + 3 else mp - 9
  (if m ≤ 2 then y + 1 else y, m, d)

/-- Decimal rendering of a natural number left-padded with zeros to `w`
digits. -/
def padNum (w n : Nat) : String :=
  let s := toString n
  if s.length < w then String.mk (List.replicate (w - s.length) '0') ++ s else s

/-- Model of `Date.prototype.toISOString` on an epoch-millisecond instant:
the `YYYY-MM-DDTHH:MM:SS.sssZ` rendering (years in 0..9999). -/
def jsToISOString (t : Int) : String :=
  let days := Int.fdiv t 86400000
  let inDay := Int.emod t 86400000
  let ymd := civilFromDays days
  let h := Int.fdiv inDay 3600000
  let mi := Int.emod (Int.fdiv inDay 60000) 60
  let s := Int.emod (Int.fdiv inDay 1000) 60
  let ms := Int.emod inDay 1000
  padNum 4 ymd.1.toNat ++ "-" ++ padNum 2 ymd.2.1.toNat ++ "-" ++ padNum 2 ymd.2.2.toNat ++
    "T" ++ padNum 2 h.toNat ++ ":" ++ padNum 2 mi.toNat ++ ":" ++ padNum 2 s.toNat ++
    "." ++ padNum 3 ms.toNat ++ "Z"

/-- Number of days in a month (one-based) of a Gregorian year. -/
def daysInMonth (y m : Int) : Int :=
  if m = 2 then
    if Int.emod y 4 = 0 && (Int.emod y 100 ≠ 0 || Int.emod y 400 = 0) then 29 else 28
  else if m = 4 || m = 6 || m = 9 || m = 11 then 30
  else 31

end JsRt

namespace JsRt

/-- Zero-based month index of a lowercased three-letter English month
abbreviation. -/
def month3 (s : String) : Option Nat :=
  if s = "jan" then some 0
  else if s = "feb" then some 1
  else if s = "mar" then some 2
  else if s = "apr" then some 3
  else if s = "may" then some 4
  else if s = "jun" then some 5
  else if s = "jul" then some 6
  else if s = "aug" then some 7
  else if s = "sep" then some 8
  else if s = "oct" then some 9
  else if s = "nov" then some 10
  else if s = "dec" then some 11
  else none

/-- Lowercased string of three characters. -/
def lower3 (a b c : Char) : String :=
  String.mk [a.toLower, b.toLower, c.toLower]

/-- Offset suffix of an ISO date-time: `some none` when absent (local time),
`some (some k)` for an explicit offset of `k` minutes, `none` when the
suffix is malformed (the whole parse is then invalid). -/
def isoOffset : List Char → Option (Option Int)
  | [] => some none
  | ['Z'] => some (some 0)
  | '+' :: h1 :: h2 :: ':' :: m1 :: m2 :: [] =>
    if h1.isDigit && h2.isDigit && m1.isDigit && m2.isDigit then
      some (some ((digitsVal [h1, h2] : Int) * 60 + (digitsVal [m1, m2] : Int)))
    else none
  | '-' :: h1 :: h2 :: ':' :: m1 :: m2 :: [] =>
    if h1.isDigit && h2.isDigit && m1.isDigit && m2.isDigit then
      some (some (-((digitsVal [h1, h2] : Int) * 60 + (digitsVal [m1, m2] : Int))))
    else none
  | _ => none

/-- Optional fractional-seconds part of an ISO date-time, in milliseconds
(further digits truncated, fewer digits right-padded, as in V8). -/
def isoFrac : List Char → Option (Int × List Char)
  | '.' :: rest =>
    let ds := rest.takeWhile Char.isDigit
    let r := rest.dropWhile Char.isDigit
    if ds = [] then none
    else some ((digitsVal (ds.take 3 ++ List.replicate (3 - ds.length) '0') : Int), r)
  | cs => some (0, cs)

/-- Optional `:SS[.fff]` part of an ISO date-time. -/
def isoSec : List Char → Option (Int × Int × List Char)
  | ':' :: s1 :: s2 :: rest =>
    if s1.isDigit && s2.isDigit then
      match isoFrac rest with
      | some (ms, r) => some ((digitsVal [s1, s2] : Int), ms, r)
      | none => none
    else none
  | cs => some (0, 0, cs)

/-- Model of the ECMA-262 date-time string parse `YYYY-MM-DD[THH:MM[:SS[.f]]]
[Z|±HH:MM]`: date-only forms are UTC, date-time forms without offset are
local (ES2015 semantics), out-of-range fields give an invalid date. -/
def parseIso (tz : Int) (cs : List Char) : Option Int :=
  match cs with
  | y1 :: y2 :: y3 :: y4 :: '-' :: a1 :: a2 :: '-' :: b1 :: b2 :: rest =>
    if y1.isDigit && y2.isDigit && y3.isDigit && y4.isDigit &&
        a1.isDigit && a2.isDigit && b1.isDigit && b2.isDigit then
      let y : Int := digitsVal [y1, y2, y3, y4]
      let mo : Int := digitsVal [a1, a2]
      let d : Int := digitsVal [b1, b2]
      if 1 ≤ mo ∧ mo ≤ 12 ∧ 1 ≤ d ∧ d ≤ daysInMonth y mo then
        match rest with
        | [] => some (jsUtcEpoch y (mo - 1) d 0 0 0 0)
        | 'T' :: h1 :: h2 :: ':' :: mi1 :: mi2 :: rest2 =>
          if h1.isDigit && h2.isDigit && mi1.isDigit && mi2.isDigit then
            let h : Int := digitsVal [h1, h2]
            let mi : Int := digitsVal [mi1, mi2]
            match isoSec rest2 with
            | some (s, ms, rest3) =>
              if h ≤ 23 ∧ mi ≤ 59 ∧ s ≤ 59 then
                match isoOffset rest3 with
                | some (some o) => some (jsUtcEpoch y (mo - 1) d h mi s ms - o * 60000)
                | some none => some (jsLocalEpoch tz y (mo - 1) d h mi s ms)
                | none => none
              else none
            | none => none
          else none
        | _ => none
      else none
    else none
  | _ => none

/-- Optional `:SS` suffix of a legacy time (no consumption on mismatch). -/
def legacySec (cs : List Char) : Nat × List Char :=
  match cs with
  | ':' :: s1 :: s2 :: r =>
    if s1.isDigit && s2.isDigit then (digitsVal [s1, s2], r) else (0, ':' :: s1 :: s2 :: r)
  | _ => (0, cs)

/-- Optional case-insensitive am/pm marker (`some true` = pm). -/
def legacyAmPm (cs : List Char) : Option Bool × List Char :=
  match cs with
  | p :: q :: r =>
    if p.toLower == 'a' && q.toLower == 'm' then (some false, r)
    else if p.toLower == 'p' && q.toLower == 'm' then (some true, r)
    else (none, p :: q :: r)
  | _ => (none, cs)

/-- Model of the V8 legacy date parser restricted to the day-month-year shape
occurring in this repository's data: `D[D] Mon YYYY[,] H[H]:MM[:SS] [am|pm]`
with a case-insensitive three-letter month, read as local time.  Other legacy
shapes are out of the model's scope and give `none` (invalid date). -/
def parseLegacy (tz : Int) (s : String) : Option Int :=
  let cs := s.data.dropWhile isWs
  let dds := cs.takeWhile Char.isDigit
  let r1 := cs.dropWhile Char.isDigit
  if dds = [] ∨ 2 < dds.length then none
  else
    let r2 := r1.dropWhile isWs
    if r1 = r2 then none
    else
      match r2 with
      | a :: b :: c :: r3 =>
        match month3 (lower3 a b c) with
        | none => none
        | some mon =>
          let r4 := r3.dropWhile isWs
          if r3 = r4 then none
          else
            let yds := r4.takeWhile Char.isDigit
            let r5 := r4.dropWhile Char.isDigit
            if yds.length ≠ 4 then none
            else
              let r6 := match r5 with
                | ',' :: t => t
                | t => t
              let r7 := r6.dropWhile isWs
              let hds := r7.takeWhile Char.isDigit
              let r8 := r7.dropWhile Char.isDigit
              if hds = [] ∨ 2 < hds.length then none
              else
                match r8 with
                | ':' :: m1 :: m2 :: r9 =>
                  if m1.isDigit && m2.isDigit then
                    let smr := legacySec r9
                    let apr := legacyAmPm (smr.2.dropWhile isWs)
                    if apr.2.dropWhile isWs = [] then
                      let h := digitsVal hds
                      let day := digitsVal dds
                      let minute := digitsVal [m1, m2]
                      let h24 : Nat :=
                        match apr.1 with
                        | some true => if h < 12 then h + 12 else h
                        | some false => if h = 12 then 0 else h
                        | none => h
                      let hourOk : Bool :=
                        match apr.1 with
                        | some _ => decide (1 ≤ h ∧ h ≤ 12)
                        | none => decide (h ≤ 23)
                      if hourOk &&
                          decide (1 ≤ (day : Int) ∧ (day : Int) ≤ daysInMonth (digitsVal yds) (mon + 1)) &&
                          decide (minute ≤ 59 ∧ smr.1 ≤ 59) then
                        some (jsLocalEpoch tz (digitsVal yds) mon day h24 minute smr.1 0)
                      else none
                    else none
                  else none
                | _ => none
      | _ => none

/-- Model of the lenient `new Date(string)` parse (then `getTime()`): the
ECMA-262 format is tried first, then the legacy shape; `none` models an
invalid date (`NaN`). -/
def jsDateParse (tz : Int) (s : String) : Option Int :=
  match parseIso tz s.data with
  | some v => some v
  | none => parseLegacy tz s

end JsRt

namespace JsRt

/-- Capture groups of the sync-script timestamp regex
`(\d{1,2})\s+(Jan|...|Dec)\s+(\d{4}),?\s*(\d{1,2}):(\d{2})(?::(\d{2}))?\s*(am|pm)?`
(case-insensitive): the month is a zero-based index, `second`/`ampm` mirror
the optional groups (`ampm`: `some true` = pm, `some false` = am). -/
structure FmtMatch where
  day : Nat
  mon : Nat
  year : Nat
  hour : Nat
  minute : Nat
  second : Option Nat
  ampm : Option Bool
  deriving Repr, DecidableEq

/-- Attempt of the sync-script timestamp regex at one start position.  The
greedy-with-backtracking behavior of `(\d{1,2})` followed by a mandatory
whitespace or colon collapses to "maximal digit run of length one or two
followed by the delimiter", because a shorter capture would put a digit where
the delimiter is required. -/
def fmtMatchAt (cs : List Char) : Option FmtMatch :=
  let dds := cs.takeWhile Char.isDigit
  let r1 := cs.dropWhile Char.isDigit
  if dds = [] ∨ 2 < dds.length then none
  else
    let r2 := r1.dropWhile isWs
    if r1 = r2 then none
    else
      match r2 with
      | a :: b :: c :: r3 =>
        match month3 (lower3 a b c) with
        | none => none
        | some mon =>
          let r4 := r3.dropWhile isWs
          if r3 = r4 then none
          else
            match r4 with
            | y1 :: y2 :: y3 :: y4 :: r5 =>
              if y1.isDigit && y2.isDigit && y3.isDigit && y4.isDigit then
                let r6 := match r5 with
                  | ',' :: t => t
                  | t => t
                let r7 := r6.dropWhile isWs
                let hds := r7.takeWhile Char.isDigit
                let r8 := r7.dropWhile Char.isDigit
                if hds = [] ∨ 2 < hds.length then none
                else
                  match r8 with
                  | ':' :: m1 :: m2 :: r9 =>
                    if m1.isDigit && m2.isDigit then
                      let secRest : Option Nat × List Char :=
                        match r9 with
                        | ':' :: s1 :: s2 :: r10 =>
                          if s1.isDigit && s2.isDigit then (some (digitsVal [s1, s2]), r10)
                          else (none, ':' :: s1 :: s2 :: r10)
                        | t => (none, t)
                      let r11 := secRest.2.dropWhile isWs
                      let ap : Option Bool :=
                        match r11 with
                        | p :: q :: _ =>
                          if p.toLower == 'a' && q.toLower == 'm' then some false
                          else if p.toLower == 'p' && q.toLower == 'm' then some true
                          else none
                        | _ => none
                      some ⟨digitsVal dds, mon, digitsVal [y1, y2, y3, y4],
                            digitsVal hds, digitsVal [m1, m2], secRest.1, ap⟩
                    else none
                  | _ => none
              else none
            | _ => none
      | _ => none

/-- Leftmost match of the sync-script timestamp regex (unanchored search,
start positions tried left to right). -/
def fmtSearch : List Char → Option FmtMatch
  | [] => none
  | c :: rest =>
    match fmtMatchAt (c :: rest) with
    | some f => some f
    | none => fmtSearch rest

/-- Capture groups of the stricter read-path comparator regex
`(\d{1,2})\s+(Jan|...|Dec)\s+(\d{4}),\s+(\d{1,2}):(\d{2})\s+(am|pm)`
(case-insensitive): comma, spacing and am/pm are mandatory, seconds are not
accepted. -/
structure CmpFmtMatch where
  day : Nat
  mon : Nat
  year : Nat
  hour : Nat
  minute : Nat
  pm : Bool
  deriving Repr, DecidableEq

/-- Attempt of the comparator regex at one start position. -/
def cmpFmtMatchAt (cs : List Char) : Option CmpFmtMatch :=
  let dds := cs.takeWhile Char.isDigit
  let r1 := cs.dropWhile Char.isDigit
  if dds = [] ∨ 2 < dds.length then none
  else
    let r2 := r1.dropWhile isWs
    if r1 = r2 then none
    else
      match r2 with
      | a :: b :: c :: r3 =>
        match month3 (lower3 a b c) with
        | none => none
        | some mon =>
          let r4 := r3.dropWhile isWs
          if r3 = r4 then none
          else
            match r4 with
            | y1 :: y2 :: y3 :: y4 :: ',' :: r5 =>
              if y1.isDigit && y2.isDigit && y3.isDigit && y4.isDigit then
                let r6 := r5.dropWhile isWs
                if r5 = r6 then none
                else
                  let hds := r6.takeWhile Char.isDigit
                  let r7 := r6.dropWhile Char.isDigit
                  if hds = [] ∨ 2 < hds.length then none
                  else
                    match r7 with
                    | ':' :: m1 :: m2 :: r8 =>
                      if m1.isDigit && m2.isDigit then
                        let r9 := r8.dropWhile isWs
                        if r8 = r9 then none
                        else
                          match r9 with
                          | p :: q :: _ =>
                            if p.toLower == 'a' && q.toLower == 'm' then
                              some ⟨digitsVal dds, mon, digitsVal [y1, y2, y3, y4],
                                    digitsVal hds, digitsVal [m1, m2], false⟩
                            else if p.toLower == 'p' && q.toLower == 'm' then
                              some ⟨digitsVal dds, mon, digitsVal [y1, y2, y3, y4],
                                    digitsVal hds, digitsVal [m1, m2], true⟩
                            else none
                          | _ => none
                      else none
                    | _ => none
              else none
            | _ => none
      | _ => none

/-- Leftmost match of the comparator regex. -/
def cmpFmtSearch : List Char → Option CmpFmtMatch
  | [] => none
  | c :: rest =>
    match cmpFmtMatchAt (c :: rest) with
    | some f => some f
    | none => cmpFmtSearch rest

/-- Capture groups of the slash-date regex `(\d{1,2})\/(\d{1,2})\/(\d{2,4})`;
the year keeps its digits because the two-digit form is treated as
`2000 + YY`. -/
structure SlashMatch where
  p1 : Nat
  p2 : Nat
  yearDigits : List Char
  deriving Repr, DecidableEq

/-- Attempt of the slash-date regex at one start position. -/
def slashMatchAt (cs : List Char) : Option SlashMatch :=
  let ds1 := cs.takeWhile Char.isDigit
  let r1 := cs.dropWhile Char.isDigit
  if ds1 = [] ∨ 2 < ds1.length then none
  else
    match r1 with
    | '/' :: r2 =>
      let ds2 := r2.takeWhile Char.isDigit
      let r3 := r2.dropWhile Char.isDigit
      if ds2 = [] ∨ 2 < ds2.length then none
      else
        match r3 with
        | '/' :: r4 =>
          let ds3 := r4.takeWhile Char.isDigit
          if ds3.length < 2 then none
          else some ⟨digitsVal ds1, digitsVal ds2, ds3.take 4⟩
        | _ => none
    | _ => none

/-- Leftmost match of the slash-date regex. -/
def slashSearch : List Char → Option SlashMatch
  | [] => none
  | c :: rest =>
    match slashMatchAt (c :: rest) with
    | some m => some m
    | none => slashSearch rest

end JsRt

namespace SyncSheetsToDb

open JsRt

/-- Twelve-hour to twenty-four-hour conversion of the sync-script normalizer
(`src/scripts/sync-sheets-to-db.ts`, lines 135-137): sequentially, pm adds 12
unless the hour is 12, then am turns 12 into 0. -/
def hour24 (ampm : Option Bool) (h : Nat) : Nat :=
  let h1 := if ampm == some true && h != 12 then h + 12 else h
  if ampm == some false && h1 == 12 then 0 else h1

/-- Instant built by the formatted-match branch of the normalizer: a local
`Date` constructed from the captured fields (absent seconds default to 0 via
`parseInt(second || '0', 10)`); the constructor's `MakeFullYear` rule maps
year captures 0000-0099 to 1900 + year. -/
def fmtInstant (tz : Int) (f : FmtMatch) : Int :=
  jsDateCtor tz f.year f.mon f.day (hour24 f.ampm f.hour) f.minute (f.second.getD 0) 0

/-- Instant built by the slash-match branch: `M[M]/D[D]/YY[YY]` read as
month/day with two-digit years mapped to `2000 + YY`, at local midnight; a
three- or four-digit capture below 100 still goes through the constructor's
`MakeFullYear` rule (1900 + year). -/
def slashInstant (tz : Int) (m : SlashMatch) : Int :=
  let yv : Int := digitsVal m.yearDigits
  let fullYear : Int := if m.yearDigits.length = 2 then 2000 + yv else yv
  jsDateCtor tz fullYear ((m.p1 : Int) - 1) m.p2 0 0 0 0

/-- First branch of the normalizer: strings containing `T` and one of `Z`/`+`
are handed to the standard `Date` parser, and its result is used only when
valid (`if (!isNaN(date.getTime())) return date`). -/
def isoBranch (tz : Int) (ts : String) : Option Int :=
  if strHas ts 'T' && (strHas ts 'Z' || strHas ts '+') then jsDateParse tz ts
  else none

/-- Shallow embedding of `parseTimestamp` from
`src/scripts/sync-sheets-to-db.ts` (lines 118-164); an identical copy of the
function appears in the `POST /api/sync-results` route source.  Branches in
source order: empty text falls back to the current instant `now`; then the
ISO attempt, the formatted match, the slash match, the generic `Date` parse;
the final fallback is again `now`. -/
def parseTimestamp (tz now : Int) (ts : String) : Int :=
  if ts = "" then now
  else
    match isoBranch tz ts with
    | some v => v
    | none =>
      match fmtSearch ts.data with
      | some f => fmtInstant tz f
      | none =>
        match slashSearch ts.data with
        | some m => slashInstant tz m
        | none =>
          match jsDateParse tz ts with
          | some v => v
          | none => now

/-- The non-fallback portion of the normalizer: `none` exactly when every
parsing branch fails and the function resorts to the current instant. -/
def parseTimestampCore (tz : Int) (ts : String) : Option Int :=
  if ts = "" then none
  else
    match isoBranch tz ts with
    | some v => some v
    | none =>
      match fmtSearch ts.data with
      | some f => some (fmtInstant tz f)
      | none =>
        match slashSearch ts.data with
        | some m => some (slashInstant tz m)
        | none => jsDateParse tz ts

end SyncSheetsToDb

namespace JsRt

/-- Insert an element into a descending-sorted list, before the first element
whose key is not larger: the position a stable sort gives the element. -/
def insertDesc (key : α → Int) (x : α) : List α → List α
  | [] => [x]
  | y :: ys => if key y ≤ key x then x :: y :: ys else y :: insertDesc key x ys

/-- Model of `Array.prototype.sort` with the numeric comparator
`(a, b) => key(b) - key(a)`: a stable descending sort by the key (ECMAScript
sort is stable and, for a consistent comparator, produces an order-sorted
permutation). -/
def sortDesc (key : α → Int) (l : List α) : List α :=
  l.foldr (insertDesc key) []

end JsRt

namespace JsRt

/-- Insertion step of a stable sort by a boolean may-come-before relation. -/
def insertByB (le : α → α → Bool) (x : α) : List α → List α
  | [] => [x]
  | y :: ys => if le x y then x :: y :: ys else y :: insertByB le x ys

/-- Stable sort by a boolean may-come-before relation, modelling
`Array.prototype.sort` with a comparator `c` via `le a b ↔ c(a, b) ≤ 0`. -/
def sortByB (le : α → α → Bool) (l : List α) : List α :=
  l.foldr (insertByB le) []

/-- Rounded mean `Math.round(sum / len)` of natural scores (nonpositive half
values cannot arise): rounding half away from zero toward positive
infinity. -/
def jsRoundDiv (sum len : Nat) : Nat :=
  (2 * sum + len) / (2 * len)

/-- Rounded mean `Math.round(sum / len)` of integer scores: `Math.round`
rounds half values toward positive infinity, so the floor division of
`2·sum + len` by `2·len`. -/
def jsRoundInt (sum : Int) (len : Nat) : Int :=
  Int.fdiv (2 * sum + len) (2 * len)

/-- Model of `x || undefined` on an optional string (empty string is
falsy). -/
def jsOrNull (o : Option String) : Option String :=
  match o with
  | some s => if s = "" then none else some s
  | none => none

end JsRt

namespace ApiSheets

open JsRt

/-!
Embedding of `src/lib/api/sheets.ts` (the Replit-connector variant whose
`getVivaResults` sorts with the inline `parseTimestamp` comparator, and whose
`getStudentsFromResults` serves `GET /api/students`).
-/

/-- `parseScore` (lib/api/sheets.ts): empty text gives 0, otherwise the first
integer found by the regex `/(\d+)/`, or 0 when the text has no digits. -/
def parseScore (s : String) : Nat :=
  if s = "" then 0
  else
    match firstDigitRun s.data with
    | some ds => digitsVal ds
    | none => 0

/-- `parseQuestionsCount` (lib/api/sheets.ts): same first-integer extraction
as `parseScore`. -/
def parseQuestionsCount (s : String) : Nat :=
  if s = "" then 0
  else
    match firstDigitRun s.data with
    | some ds => digitsVal ds
    | none => 0

/-- Twelve-hour conversion of the comparator (`let hour24 = parseInt(hour)`
then the two sequential am/pm adjustments). -/
def cmpHour24 (pm : Bool) (h : Nat) : Nat :=
  let h1 := if pm && h != 12 then h + 12 else h
  if !pm && h1 == 12 then 0 else h1

/-- Shallow embedding of the inline `parseTimestamp` comparator key inside
`getVivaResults` (lib/api/sheets.ts): empty text is 0; ISO-looking text is
handed to the `Date` parser and its value returned unconditionally (`none`
models the `NaN` that an ISO-looking but unparseable text produces); then the
strict formatted match builds a local instant; otherwise the generic `Date`
parse with 0 for an invalid date. -/
def parseTimestamp (tz : Int) (ts : String) : Option Int :=
  if ts = "" then some 0
  else if strHas ts 'T' && (strHas ts 'Z' || strHas ts '+') then jsDateParse tz ts
  else
    match cmpFmtSearch ts.data with
    | some f => some (jsDateCtor tz f.year f.mon f.day (cmpHour24 f.pm f.hour) f.minute 0 0)
    | none => some ((jsDateParse tz ts).getD 0)

/-- The `VivaResult` record shape of `lib/types/viva` as produced by the
spreadsheet read path; `evaluationRaw` keeps the raw text of column K that
the source would hand to `JSON.parse` (JSON validity itself is outside the
model, no claim inspects the parsed object). -/
structure VivaResultA where
  id : String
  timestamp : String
  studentName : String
  studentEmail : String
  subject : String
  topics : String
  questionsAnswered : Nat
  score : Nat
  overallFeedback : String
  transcript : String
  recordingUrl : Option String
  evaluationRaw : Option String
  deriving Repr, DecidableEq

/-- Column-K handling of `getVivaResults`: the trimmed text is considered
only when nonempty and starting with a brace or bracket. -/
def evalCol (o : Option String) : Option String :=
  match o with
  | some s =>
    let t := jsTrim s
    match t.data with
    | c :: _ => if c = '\x7b' ∨ c = '[' then some t else none
    | [] => none
  | none => none

/-- Row-to-record mapping of `getVivaResults` (lib/api/sheets.ts): positional
columns A-K with falsy defaults, first-integer numeric extraction, and a
row-index-derived id. -/
def mkResult (i : Nat) (row : List String) : VivaResultA :=
  { id := "VIVA" ++ padNum 4 (i + 1)
    timestamp := cellD row 0 ""
    studentName := cellD row 1 "Unknown"
    studentEmail := cellD row 2 ""
    subject := cellD row 3 "Unknown Subject"
    topics := cellD row 4 ""
    questionsAnswered := parseQuestionsCount (cellD row 5 "")
    score := parseScore (cellD row 6 "")
    overallFeedback := cellD row 7 ""
    transcript := cellD row 8 ""
    recordingUrl := jsOrNull (cell row 9)
    evaluationRaw := evalCol (cell row 10) }

/-- The comparator key actually used by the sort: an unparseable non-ISO text
maps to 0 inside the comparator itself; the `NaN` of an ISO-looking
unparseable text (modelled by `none`) is mapped to 0 here, which agrees with
ECMAScript sorting whenever no such text occurs (the ordering theorems
hypothesize parseable keys). -/
def sortKey (tz : Int) (r : VivaResultA) : Int :=
  (parseTimestamp tz r.timestamp).getD 0

/-- Shallow embedding of `getVivaResults` (lib/api/sheets.ts) applied to the
fetched data rows of the `Viva Results` sheet (range A2:K, header already
excluded): row mapping followed by the descending comparator sort. -/
def getVivaResults (tz : Int) (rows : List (List String)) : List VivaResultA :=
  sortDesc (sortKey tz) (rows.enum.map (fun p => mkResult p.1 p.2))

/-- Accumulator entry of the student map in `getStudentsFromResults`. -/
structure StudentAccA where
  name : String
  scores : List Nat
  lastViva : String
  subjects : List String
  deriving Repr, DecidableEq

/-- Model of `new Date(a) > new Date(b)`: numeric comparison in which any
`NaN` side yields false. -/
def dateGt (tz : Int) (a b : String) : Bool :=
  match jsDateParse tz a, jsDateParse tz b with
  | some x, some y => decide (y < x)
  | _, _ => false

/-- Per-result update of a student entry: push the score, add the subject to
the insertion-ordered set, advance `lastViva` when the result's instant is
later. -/
def updStudent (tz : Int) (a : StudentAccA) (r : VivaResultA) : StudentAccA :=
  { a with
    scores := a.scores ++ [r.score]
    subjects := if r.subject ∈ a.subjects then a.subjects else a.subjects ++ [r.subject]
    lastViva := if dateGt tz r.timestamp a.lastViva then r.timestamp else a.lastViva }

/-- Fresh student entry created on first sight of an email key. -/
def initStudent (r : VivaResultA) : StudentAccA :=
  { name := r.studentName, scores := [], lastViva := r.timestamp, subjects := [] }

/-- One `for`-loop iteration of `getStudentsFromResults`: the map key is the
raw `result.studentEmail` (no case folding); a JavaScript `Map` preserves
insertion order, modelled by an association list updated in place. -/
def stepStudent (tz : Int) (m : List (String × StudentAccA)) (r : VivaResultA) :
    List (String × StudentAccA) :=
  let k := r.studentEmail
  if m.any (fun p => p.1 = k) then
    m.map (fun p => if p.1 = k then (p.1, updStudent tz p.2 r) else p)
  else
    m ++ [(k, updStudent tz (initStudent r) r)]

/-- Output entry of `getStudentsFromResults` (no status field exists on this
path). -/
structure StudentOutA where
  email : String
  name : String
  vivasCompleted : Nat
  avgScore : Nat
  lastViva : String
  subjects : List String
  deriving Repr, DecidableEq

/-- Shallow embedding of `getStudentsFromResults` (lib/api/sheets.ts) applied
to the result list it reads: group by raw email, then project each entry to
the summary record (count, rounded average, last viva, subject list). -/
def getStudentsFromResults (tz : Int) (results : List VivaResultA) : List StudentOutA :=
  (results.foldl (stepStudent tz) []).map (fun p =>
    { email := p.1
      name := p.2.name
      vivasCompleted := p.2.scores.length
      avgScore :=
        if p.2.scores.length > 0 then jsRoundDiv p.2.scores.sum p.2.scores.length else 0
      lastViva := p.2.lastViva
      subjects := p.2.subjects })

end ApiSheets

namespace LibSheets

open JsRt

/-!
Embedding of `src/lib/sheets.ts`, the module actually imported by the
`GET /api/viva-results` route (`fetchVivaResults`) and by the summary page
(`fetchStudentSummaries`).
-/

/-- First maximal digit run immediately followed by the literal `/100`: the
capture of the regex `/(\d+)\/100/` in search mode (a proper suffix of a
digit run is followed by a digit, so only maximal runs can match). -/
def slash100Search : List Char → Option Nat
  | [] => none
  | c :: cs =>
    if c.isDigit then
      match cs.dropWhile Char.isDigit with
      | '/' :: '1' :: '0' :: '0' :: _ => some (digitsVal (c :: cs.takeWhile Char.isDigit))
      | _ => slash100Search cs
    else slash100Search cs

/-- `parseScore` from `src/lib/sheets.ts` (lines 96-104): empty text gives 0;
otherwise the numerator of the first `N/100` occurrence; otherwise
`parseInt(scoreStr, 10)` with `NaN` mapped to 0 — note this parses only a
leading integer and differs from the first-integer extraction of
`lib/api/sheets.ts`. -/
def parseScore (s : String) : Int :=
  if s = "" then 0
  else
    match slash100Search s.data with
    | some v => (v : Int)
    | none => (jsParseInt s).getD 0

/-- The `VivaResult` record of `src/lib/sheets.ts` (columns A-J, derived
status). -/
structure VivaResultL where
  id : String
  dateTime : String
  studentName : String
  email : String
  subject : String
  topics : String
  questionsAnswered : String
  score : Int
  overallFeedback : String
  transcript : String
  recordingUrl : String
  status : String
  deriving Repr, DecidableEq

/-- Row-to-record mapping of `fetchVivaResults`: positional columns with
falsy defaults and a pass threshold of 50. -/
def mkResult (i : Nat) (row : List String) : VivaResultL :=
  let score := parseScore (cellD row 6 "0")
  { id := "VIVA" ++ padNum 3 (i + 1)
    dateTime := cellD row 0 ""
    studentName := cellD row 1 "Unknown"
    email := cellD row 2 ""
    subject := cellD row 3 "Unknown"
    topics := cellD row 4 ""
    questionsAnswered := cellD row 5 "0"
    score := score
    overallFeedback := cellD row 7 ""
    transcript := cellD row 8 ""
    recordingUrl := cellD row 9 ""
    status := if score ≥ 50 then "passed" else "failed" }

/-- Comparator key of the `fetchVivaResults` sort: the plain
`new Date(dateTime).getTime()` value; an invalid date (`NaN`, modelled
`none`) is mapped to 0 here, and the ordering theorem hypothesizes parseable
keys, where the model agrees with ECMAScript sorting. -/
def sortKeyL (tz : Int) (r : VivaResultL) : Int :=
  (jsDateParse tz r.dateTime).getD 0

/-- Shallow embedding of `fetchVivaResults` (src/lib/sheets.ts lines
109-164).  `cfg` is the presence of the `GOOGLE_SHEET_ID` configuration;
`fetch` is the outcome of the remote read of range A:J including the header
row (`none` models a thrown fetch error, whose caught message is represented
by a fixed text no claim inspects).  One data row or fewer yields the empty
success; otherwise the header is dropped, rows are mapped positionally, and
the list is sorted descending by the raw `Date` parse of the text
timestamp. -/
def fetchVivaResults (tz : Int) (cfg : Bool) (fetch : Option (List (List String))) :
    Except String (List VivaResultL) :=
  if ¬ cfg then .error "GOOGLE_SHEET_ID environment variable not set"
  else
    match fetch with
    | none => .error "fetch error"
    | some rows =>
      if rows.length ≤ 1 then .ok []
      else .ok (sortDesc (sortKeyL tz) ((rows.drop 1).enum.map (fun p => mkResult p.1 p.2)))

/-- Accumulator entry of the student map in `fetchStudentSummaries`; the map
key is the lowercased email while `email` keeps the first-seen original
spelling. -/
structure StudentAccL where
  name : String
  email : String
  scores : List Int
  subjects : List String
  lastDate : Option String
  deriving Repr, DecidableEq

/-- Per-result update of a summary entry: push the score, add the subject to
the insertion-ordered set, advance `lastDate` by JavaScript string comparison
(`result.dateTime > student.lastDate`), modelled by code-point order. -/
def updSummary (a : StudentAccL) (r : VivaResultL) : StudentAccL :=
  { a with
    scores := a.scores ++ [r.score]
    subjects := if r.subject ∈ a.subjects then a.subjects else a.subjects ++ [r.subject]
    lastDate :=
      match a.lastDate with
      | none => some r.dateTime
      | some d => if d < r.dateTime then some r.dateTime else some d }

/-- Fresh summary entry created on first sight of a lowercased email key. -/
def initSummary (r : VivaResultL) : StudentAccL :=
  { name := r.studentName, email := r.email, scores := [], subjects := [], lastDate := none }

/-- One `forEach` iteration of `fetchStudentSummaries`: the map key is
`result.email.toLowerCase()`. -/
def stepSummary (m : List (String × StudentAccL)) (r : VivaResultL) :
    List (String × StudentAccL) :=
  let k := strLower r.email
  if m.any (fun p => p.1 = k) then
    m.map (fun p => if p.1 = k then (p.1, updSummary p.2 r) else p)
  else
    m ++ [(k, updSummary (initSummary r) r)]

/-- The `StudentSummary` record of `src/lib/sheets.ts`. -/
structure StudentSummary where
  id : String
  name : String
  email : String
  vivasCompleted : Nat
  averageScore : Int
  subjects : List String
  lastVivaDate : Option String
  status : String
  deriving Repr, DecidableEq

/-- Projection of an accumulated entry to a `StudentSummary`: rounded average
(0 when empty), and the status rule `pending` on zero vivas, `at_risk` below
average 50, `active` otherwise. -/
def mkSummary (i : Nat) (a : StudentAccL) : StudentSummary :=
  let avg : Int := if a.scores.length > 0 then jsRoundInt a.scores.sum a.scores.length else 0
  { id := "STU" ++ padNum 3 (i + 1)
    name := a.name
    email := a.email
    vivasCompleted := a.scores.length
    averageScore := avg
    subjects := a.subjects
    lastVivaDate := a.lastDate
    status := if a.scores.length = 0 then "pending" else if avg < 50 then "at_risk" else "active" }

/-- May-come-before relation of the final summary sort: entries without a
last viva go last, the rest descend by `localeCompare` on the date text
(modelled as code-point order). -/
def summaryLe (a b : StudentSummary) : Bool :=
  match a.lastVivaDate, b.lastVivaDate with
  | none, _ => false
  | some _, none => true
  | some x, some y => decide (y ≤ x)

/-- Shallow embedding of `fetchStudentSummaries` (src/lib/sheets.ts lines
169-249) applied to the result list it reads: group by lowercased email in
insertion order, project each entry with its index-derived id, then sort. -/
def fetchStudentSummaries (results : List VivaResultL) : List StudentSummary :=
  sortByB summaryLe ((results.foldl stepSummary []).enum.map (fun p => mkSummary p.1 p.2.2))

end LibSheets

namespace Db

/-- One row of the relational `viva_results` table, with the columns the
pipeline reads and writes (`vapi_call_id` is the natural-key column added by
the auto-sync migration, null on every other write path; `evaluation` holds
the stored JSON text or null). -/
structure VivaRow where
  id : Nat
  timestamp : Int
  student_name : String
  student_email : String
  subject : String
  topics : String
  questions_answered : Int
  score : Int
  overall_feedback : String
  transcript : String
  recording_url : Option String
  evaluation : Option String
  vapi_call_id : Option String
  deriving Repr, DecidableEq

/-- Next value of the serial id sequence (monotone, not reset by a plain
`TRUNCATE`). -/
def nextId (t : List VivaRow) : Nat :=
  t.foldl (fun m r => max m r.id) 0 + 1

end Db

namespace VivaResultsRoute

open JsRt

/-!
Embedding of `GET` in `src/app/api/viva-results/route.ts` (lines 22-74): the
Relational Store is queried first with `ORDER BY timestamp DESC`; a nonempty
result is served as source `database`; an empty result falls back to
`fetchVivaResults` of `src/lib/sheets.ts`; a thrown database query reaches
the outer catch and produces a 500 response.
-/

/-- JavaScript `s || d` on a string value. -/
def jsOrS (s d : String) : String :=
  if s = "" then d else s

/-- The `VivaResult` view shape built by the route's database branch. -/
structure VivaResultView where
  id : String
  dateTime : String
  studentName : String
  email : String
  subject : String
  topics : String
  questionsAnswered : String
  score : Int
  overallFeedback : String
  transcript : String
  recordingUrl : String
  status : String
  deriving Repr, DecidableEq

/-- Row-to-view mapping of the database branch (the `timestamp` column is
declared non-null in the repository's row type, so the defensive
`row.timestamp?.toISOString() || ...` always takes the first arm). -/
def mkView (row : Db.VivaRow) : VivaResultView :=
  { id := "VIVA" ++ padNum 3 row.id
    dateTime := jsToISOString row.timestamp
    studentName := jsOrS row.student_name "Unknown"
    email := row.student_email
    subject := jsOrS row.subject "Unknown Subject"
    topics := row.topics
    questionsAnswered := toString row.questions_answered
    score := row.score
    overallFeedback := row.overall_feedback
    transcript := row.transcript
    recordingUrl := jsOrStr row.recording_url ""
    status := if row.score ≥ 50 then "passed" else "failed" }

/-- Response of the route: success with source `database`, success with
source `google_sheets`, or an error status. -/
inductive Resp where
  | okDb (data : List VivaResultView) (count : Nat)
  | okSheets (data : List LibSheets.VivaResultL) (count : Nat)
  | err (status : Nat) (msg : String)
  deriving Repr, DecidableEq

/-- The `source` field of the JSON response, absent on errors. -/
def Resp.sourceOf : Resp → Option String
  | .okDb _ _ => some "database"
  | .okSheets _ _ => some "google_sheets"
  | .err _ _ => none

/-- The `count` field of the JSON response, absent on errors. -/
def Resp.countOf : Resp → Option Nat
  | .okDb _ c => some c
  | .okSheets _ c => some c
  | .err _ _ => none

/-- Shallow embedding of the route handler.  `db` is the outcome of the
`SELECT * FROM viva_results ORDER BY timestamp DESC` query: `none` models a
thrown query (unreachable store), `some table` the table contents, which the
model sorts descending by the timestamp column as the database does. -/
def GET (tz : Int) (db : Option (List Db.VivaRow)) (cfg : Bool)
    (sheetFetch : Option (List (List String))) : Resp :=
  match db with
  | none => .err 500 "Internal server error"
  | some table =>
    let sorted := sortDesc (fun r => r.timestamp) table
    if 0 < sorted.length then .okDb (sorted.map mkView) sorted.length
    else
      match LibSheets.fetchVivaResults tz cfg sheetFetch with
      | .ok data => .okSheets data data.length
      | .error e => .err 500 (jsOrS e "Failed to fetch results")

end VivaResultsRoute

namespace WebhookRoute

open JsRt

/-!
Embedding of `src/app/api/webhook/viva-result/route.ts`: `POST` validates
`studentName`, then issues the two independent best-effort writes
(`saveToDatabase`, `appendToSheet`); each helper catches its own errors and
returns a boolean, so the response is always a success for a well-formed
request.  Store failures (including a missing sheet access token) are
injected by the `dbFails`/`sheetFails` parameters; `now` is the arrival
instant read by the two `new Date()` calls.
-/

/-- The webhook request body: every field the handler reads, plus the
`timestamp` field a caller may send, which the handler never reads.
`evaluation` holds the JSON serialization of the evaluation object when one
is present (`JSON.stringify` output, never the empty string). -/
structure Payload where
  studentName : Option String
  studentEmail : Option String
  subject : Option String
  topics : Option String
  questionsAnswered : Option String
  score : Option String
  overallFeedback : Option String
  transcript : Option String
  recordingUrl : Option String
  evaluation : Option String
  timestamp : Option String
  deriving Repr, DecidableEq

/-- JavaScript `parseInt(x) || 0` on an optional string
(`parseInt(undefined)` is `NaN`, which the disjunction turns into 0). -/
def jsParseIntD (o : Option String) : Int :=
  match o with
  | some s => (jsParseInt s).getD 0
  | none => 0

/-- The 11-cell spreadsheet row appended by `appendToSheet` (lines 38-51):
the first cell is `new Date().toISOString()` — the arrival instant, not any
caller-supplied value. -/
def sheetRowOf (now : Int) (p : Payload) : List String :=
  [ jsToISOString now,
    jsOrStr p.studentName "",
    jsOrStr p.studentEmail "",
    jsOrStr p.subject "",
    jsOrStr p.topics "",
    jsOrStr p.questionsAnswered "0",
    jsOrStr p.score "0",
    jsOrStr p.overallFeedback "",
    jsOrStr p.transcript "",
    jsOrStr p.recordingUrl "",
    jsOrStr p.evaluation "" ]

/-- The relational row inserted by `saveToDatabase` (lines 67-89): the
timestamp column is `new Date()` — again the arrival instant. -/
def dbRowOf (now : Int) (rid : Nat) (p : Payload) : Db.VivaRow :=
  { id := rid
    timestamp := now
    student_name := jsOrStr p.studentName "Unknown"
    student_email := jsOrStr p.studentEmail ""
    subject := jsOrStr p.subject "Unknown Subject"
    topics := jsOrStr p.topics ""
    questions_answered := jsParseIntD p.questionsAnswered
    score := jsParseIntD p.score
    overall_feedback := jsOrStr p.overallFeedback ""
    transcript := jsOrStr p.transcript ""
    recording_url := jsOrNull p.recordingUrl
    evaluation := jsOrNull p.evaluation
    vapi_call_id := none }

/-- Response of the webhook: `ok` is the `success: true` JSON body with the
two per-store flags. -/
inductive Resp where
  | ok (savedToDatabase savedToSheet : Bool) (message : String)
  | badRequest (error : String)
  deriving Repr, DecidableEq

/-- Message interpolation of the success response. -/
def message (d s : Bool) : String :=
  "Result saved" ++ (if d then " to database" else "") ++
    (if d && s then " and" else "") ++ (if s then " to Google Sheets" else "")

/-- Final state of one webhook request: the response and both stores. -/
structure Out where
  resp : Resp
  db : List Db.VivaRow
  sheet : List (List String)
  deriving Repr, DecidableEq

/-- Shallow embedding of the `POST` handler (lines 98-127): a falsy
`studentName` is a 400 with no write attempted; otherwise both writes run
independently (`Promise.all`), each surviving the other's failure, and the
response is a success carrying the two flags. -/
def POST (now : Int) (p : Payload) (dbFails sheetFails : Bool)
    (db : List Db.VivaRow) (sheet : List (List String)) : Out :=
  if jsOrStr p.studentName "" = "" then
    { resp := .badRequest "Student name is required", db := db, sheet := sheet }
  else
    { resp := .ok (!dbFails) (!sheetFails) (message (!dbFails) (!sheetFails))
      db := if dbFails then db else db ++ [dbRowOf now (Db.nextId db) p]
      sheet := if sheetFails then sheet else sheet ++ [sheetRowOf now p] }

end WebhookRoute

namespace SyncResultsRoute

open JsRt

/-!
Embedding of `POST` in the `sync-results` route (full-replace reconciliation
variant): pull all rows of the `Viva Results` sheet, `TRUNCATE TABLE
viva_results`, then insert every pulled row with a student name.  There is no
transaction: the truncation and each insert commit individually, and a
thrown insert reaches the outer catch with the already-truncated table left
as is.  `insertFails` injects, per attempted insert, whether that
`pool.query` throws.
-/

/-- The numeric extraction of the sync loop:
`row[i] ? parseInt(String(row[i]).match(/(\d+)/)?.[1] || '0', 10) : 0`. -/
def numExtract (o : Option String) : Int :=
  match o with
  | some s =>
    if s = "" then 0
    else
      match firstDigitRun s.data with
      | some ds => (digitsVal ds : Int)
      | none => 0
  | none => 0

/-- The row inserted for one sheet row (columns A-K positionally; the
timestamp goes through the normalizer; evaluation column handling is the
same trim/brace check as in `lib/api/sheets.ts`). -/
def rowRecord (tz now : Int) (rid : Nat) (row : List String) : Db.VivaRow :=
  { id := rid
    timestamp := SyncSheetsToDb.parseTimestamp tz now (cellD row 0 "")
    student_name := cellD row 1 "Unknown"
    student_email := cellD row 2 ""
    subject := cellD row 3 "Unknown Subject"
    topics := cellD row 4 ""
    questions_answered := numExtract (cell row 5)
    score := numExtract (cell row 6)
    overall_feedback := cellD row 7 ""
    transcript := cellD row 8 ""
    recording_url := jsOrNull (cell row 9)
    evaluation := ApiSheets.evalCol (cell row 10)
    vapi_call_id := none }

/-- Response of the sync route. -/
inductive Resp where
  | ok (synced : Nat) (message : String)
  | err (status : Nat) (msg : String)
  deriving Repr, DecidableEq

/-- Final state of one sync cycle: the response and the table. -/
structure Out where
  resp : Resp
  table : List Db.VivaRow
  deriving Repr, DecidableEq

/-- The post-truncation insert loop: skip rows with a falsy student-name
cell, abort the whole cycle on a thrown insert (outer catch, table left with
only the rows inserted so far), report the synced count otherwise. -/
def runInserts (tz now : Int) (startId : Nat) :
    List (List String) → List Bool → List Db.VivaRow → Nat → Out
  | [], _, acc, synced =>
    { resp := .ok synced
        ("Synced " ++ toString synced ++ " viva results from Google Sheets to database")
      table := acc }
  | row :: rest, fails, acc, synced =>
    if cellD row 1 "" = "" then runInserts tz now startId rest fails acc synced
    else if fails.headD false then
      { resp := .err 500 "Failed to sync results", table := acc }
    else
      runInserts tz now startId rest fails.tail
        (acc ++ [rowRecord tz now (startId + synced) row]) (synced + 1)

/-- Shallow embedding of the `POST` handler: missing token is a 500 with the
table untouched; a thrown sheet fetch is caught before any mutation; on a
successful fetch the table is truncated and the insert loop runs. -/
def POST (tz now : Int) (token : Bool) (fetch : Option (List (List String)))
    (insertFails : List Bool) (table : List Db.VivaRow) : Out :=
  if ¬ token then { resp := .err 500 "No Google Sheets access", table := table }
  else
    match fetch with
    | none => { resp := .err 500 "Failed to sync results", table := table }
    | some rows => runInserts tz now (Db.nextId table) rows insertFails [] 0

end SyncResultsRoute

namespace AutoSync

open JsRt

/-!
Embedding of `src/scripts/auto-sync.ts` — the idempotent-upsert
reconciliation variant keyed on `vapi_call_id`.  The untyped JSON scalars of
`analysis.structuredData` are modelled by `JVal` (string, number, or absent)
with JavaScript truthiness.
-/

/-- A JSON scalar as handled by `extractVivaData`: absent (`undefined`), a
string, or a number. -/
inductive JVal where
  | absent
  | str (s : String)
  | num (n : Int)
  deriving Repr, DecidableEq

/-- JavaScript truthiness of a scalar (empty string and zero are falsy). -/
def truthy : JVal → Bool
  | .absent => false
  | .str s => s ≠ ""
  | .num n => n ≠ 0

/-- JavaScript `a || b` on scalars. -/
def jsOr (a b : JVal) : JVal :=
  if truthy a then a else b

/-- Injection of an optional string field (for example
`call.customer?.name`). -/
def jvalOfOpt (o : Option String) : JVal :=
  match o with
  | some s => .str s
  | none => .absent

/-- The `structuredData` fields read by `extractVivaData`. -/
structure StructuredData where
  studentName : JVal
  studentEmail : JVal
  email : JVal
  subject : JVal
  topics : JVal
  topic : JVal
  questionsAnswered : JVal
  totalQuestions : JVal
  score : JVal
  totalMarks : JVal
  marks : JVal
  overallFeedback : JVal
  feedback : JVal
  evaluation : JVal
  deriving Repr, DecidableEq

/-- One VAPI call record, with the fields the script reads
(`call.analysis?.structuredData || {}` makes all scalar fields absent when
the analysis is missing). -/
structure VapiCall where
  id : String
  createdAt : String
  status : String
  assistantName : Option String
  customerName : Option String
  analysisSummary : Option String
  sd : StructuredData
  transcript : Option String
  recordingUrl : Option String
  deriving Repr, DecidableEq

/-- Numeric coercion `typeof v === 'number' ? v : parseInt(v) || 0`. -/
def toNumD (v : JVal) : Int :=
  match v with
  | .num n => n
  | .str s => (jsParseInt s).getD 0
  | .absent => 0

/-- String coercion `typeof v === 'string' ? v : JSON.stringify(v)`
(`JSON.stringify(undefined)` is `undefined`). -/
def stringifyJ (v : JVal) : JVal :=
  match v with
  | .str s => .str s
  | .num n => .str (toString n)
  | .absent => .absent

/-- The extracted result data of one call.  In the source the expression
`structuredData.evaluation || structuredData.marks ? {...} : null` groups as
`(evaluation || marks) ? {marks, feedback} : null` — operator precedence
makes the disjunction the whole condition — so the stored evaluation object
is always built from the `marks`/`feedback` fields. -/
structure VivaData where
  timestamp : Option Int
  studentName : JVal
  studentEmail : JVal
  subject : JVal
  topics : JVal
  questionsAnswered : Int
  score : Int
  overallFeedback : JVal
  transcript : String
  recordingUrl : String
  evaluation : Option (JVal × JVal)
  vapiCallId : String
  deriving Repr, DecidableEq

/-- Shallow embedding of `extractVivaData` (src/scripts/auto-sync.ts lines
73-127): the fallback chains over structured data, call metadata and literal
defaults, with the arrival timestamp parsed from `call.createdAt`. -/
def extractVivaData (tz : Int) (c : VapiCall) : VivaData :=
  let sd := c.sd
  { timestamp := jsDateParse tz c.createdAt
    studentName := jsOr sd.studentName (jsOr (jvalOfOpt c.customerName) (.str "Unknown Student"))
    studentEmail := jsOr sd.studentEmail (jsOr sd.email (.str ""))
    subject := jsOr sd.subject (jsOr (jvalOfOpt c.assistantName) (.str "Unknown Subject"))
    topics := stringifyJ (jsOr sd.topics (jsOr sd.topic (.str "")))
    questionsAnswered := toNumD (jsOr sd.questionsAnswered (jsOr sd.totalQuestions (.num 0)))
    score := toNumD (jsOr sd.score (jsOr sd.totalMarks (jsOr sd.marks (.num 0))))
    overallFeedback :=
      jsOr sd.overallFeedback (jsOr sd.feedback (jsOr (jvalOfOpt c.analysisSummary) (.str "")))
    transcript := jsOrStr c.transcript ""
    recordingUrl := jsOrStr c.recordingUrl ""
    evaluation := if truthy (jsOr sd.evaluation sd.marks) then some (sd.marks, sd.feedback) else none
    vapiCallId := c.id }

/-- One row of `viva_results` as touched by the upsert: every updated column
is a projection of the extracted `VivaData`, so the row content it stored is
represented by the data value itself; the serial `rowId` and the
`vapi_call_id` key are never changed by an update. -/
structure VapiRow where
  rowId : Nat
  vapiCallId : String
  data : VivaData
  deriving Repr, DecidableEq

/-- Next serial id of the table model. -/
def nextRowId (t : List VapiRow) : Nat :=
  t.foldl (fun m r => max m r.rowId) 0 + 1

/-- One iteration of the `syncFromVapi` loop (lines 146-205): calls not yet
`ended` are skipped; when a row with the call's `vapi_call_id` exists it is
updated in place, otherwise a fresh row is inserted; nothing is ever
deleted. -/
def upsertStep (tz : Int) (t : List VapiRow) (c : VapiCall) : List VapiRow :=
  if c.status ≠ "ended" then t
  else
    let d := extractVivaData tz c
    if t.any (fun r => r.vapiCallId = d.vapiCallId) then
      t.map (fun r => if r.vapiCallId = d.vapiCallId then { r with data := d } else r)
    else
      t ++ [{ rowId := nextRowId t, vapiCallId := d.vapiCallId, data := d }]

/-- Shallow embedding of one `syncFromVapi` cycle (lines 129-211) applied to
the fetched call list: the upsert loop over all calls. -/
def syncFromVapi (tz : Int) (calls : List VapiCall) (t : List VapiRow) : List VapiRow :=
  calls.foldl (upsertStep tz) t

/-- The unique identifiers of the `ended` calls of a pull — the calls the
loop actually upserts. -/
def endedIds (calls : List VapiCall) : List String :=
  (calls.filter (fun c => c.status = "ended")).map (fun c => c.id)

end AutoSync

namespace Demo

open JsRt

/-- A pre-existing relational result row (used as the nonempty table of the
full-replace failure scenario). -/
def dbRow1 : Db.VivaRow :=
  { id := 1, timestamp := 1768471895724, student_name := "Existing Student",
    student_email := "existing@example.com", subject := "Physics", topics := "",
    questions_answered := 4, score := 61, overall_feedback := "", transcript := "",
    recording_url := none, evaluation := none, vapi_call_id := none }

/-- A well-formed sheet data row (ISO timestamp, text numerics). -/
def sheetRow1 : List String :=
  ["2026-01-15T10:11:35.724Z", "Asha Rao", "asha@example.com", "Maths", "Algebra",
   "5 questions", "72/100", "Good", "AI: q Student: a", "", ""]

/-- A second sheet data row with the formatted timestamp text. -/
def sheetRow2 : List String :=
  ["15 Jan 2026, 3:38 pm", "Vikram Shah", "vikram@example.com", "Maths", "Calculus",
   "8 questions", "45/100", "", "", "", ""]

/-- A third sheet data row. -/
def sheetRow3 : List String :=
  ["15 Jan 2026, 3:37 pm", "Divya Nair", "divya@example.com", "Physics", "",
   "6", "80", "", "", "", ""]

/-- A spreadsheet value range including its header row and three data rows,
as the `A:J` read of `fetchVivaResults` returns it. -/
def sheetWithHeader : List (List String) :=
  [["Date & Time", "Student Name", "Email", "Subject", "Topics",
    "Questions Answered", "Score", "Overall Feedback", "Transcript", "Recording"],
   sheetRow1, sheetRow2, sheetRow3]

/-- A well-formed webhook payload (the end-to-end ingestion example of the
specification) carrying a caller-supplied timestamp field. -/
def payload1 : WebhookRoute.Payload :=
  { studentName := some "Asha Rao", studentEmail := some "asha@example.com",
    subject := some "Maths", topics := some "Algebra",
    questionsAnswered := some "5 questions", score := some "72/100",
    overallFeedback := some "Good work", transcript := some "AI: q Student: a",
    recordingUrl := none, evaluation := none,
    timestamp := some "1999-01-01T00:00:00.000Z" }

/-- Two spreadsheet-read results whose emails differ only in letter case. -/
def resA1 : ApiSheets.VivaResultA :=
  { id := "VIVA0001", timestamp := "2026-01-15T10:00:00.000Z", studentName := "Asha",
    studentEmail := "Asha@Example.com", subject := "Maths", topics := "",
    questionsAnswered := 5, score := 70, overallFeedback := "", transcript := "",
    recordingUrl := none, evaluationRaw := none }

/-- The second case-variant result. -/
def resA2 : ApiSheets.VivaResultA :=
  { id := "VIVA0002", timestamp := "2026-01-16T10:00:00.000Z", studentName := "Asha",
    studentEmail := "asha@example.com", subject := "Physics", topics := "",
    questionsAnswered := 3, score := 30, overallFeedback := "", transcript := "",
    recordingUrl := none, evaluationRaw := none }

/-- The same two case-variant results in the `lib/sheets.ts` record shape. -/
def resL1 : LibSheets.VivaResultL :=
  { id := "VIVA001", dateTime := "2026-01-15T10:00:00.000Z", studentName := "Asha",
    email := "Asha@Example.com", subject := "Maths", topics := "",
    questionsAnswered := "5", score := 70, overallFeedback := "", transcript := "",
    recordingUrl := "", status := "passed" }

/-- The second case-variant result, below the pass threshold. -/
def resL2 : LibSheets.VivaResultL :=
  { id := "VIVA002", dateTime := "2026-01-16T10:00:00.000Z", studentName := "Asha",
    email := "asha@example.com", subject := "Physics", topics := "",
    questionsAnswered := "3", score := 30, overallFeedback := "", transcript := "",
    recordingUrl := "", status := "failed" }

/-- Structured data with every scalar absent. -/
def sdEmpty : AutoSync.StructuredData :=
  { studentName := .absent, studentEmail := .absent, email := .absent, subject := .absent,
    topics := .absent, topic := .absent, questionsAnswered := .absent, totalQuestions := .absent,
    score := .absent, totalMarks := .absent, marks := .absent, overallFeedback := .absent,
    feedback := .absent, evaluation := .absent }

/-- A first ended VAPI call. -/
def call1 : AutoSync.VapiCall :=
  { id := "call-001", createdAt := "2026-01-15T10:11:35.724Z", status := "ended",
    assistantName := some "Maths Examiner", customerName := some "Asha Rao",
    analysisSummary := some "Good session",
    sd := { sdEmpty with
            studentName := AutoSync.JVal.str "Asha Rao"
            score := AutoSync.JVal.num 72
            questionsAnswered := AutoSync.JVal.num 5 },
    transcript := some "AI: q Student: a", recordingUrl := none }

/-- A second ended VAPI call with a distinct identifier. -/
def call2 : AutoSync.VapiCall :=
  { id := "call-002", createdAt := "2026-01-15T11:00:00.000Z", status := "ended",
    assistantName := some "Physics Examiner", customerName := some "Vikram Shah",
    analysisSummary := none,
    sd := { sdEmpty with
            studentName := AutoSync.JVal.str "Vikram Shah"
            score := AutoSync.JVal.num 45 },
    transcript := none, recordingUrl := none }

/-- A call still in progress, which the sync loop must skip. -/
def call3 : AutoSync.VapiCall :=
  { id := "call-003", createdAt := "2026-01-15T11:30:00.000Z", status := "in-progress",
    assistantName := none, customerName := none, analysisSummary := none,
    sd := sdEmpty, transcript := none, recordingUrl := none }

/-- The demo pull of the idempotent-upsert variant. -/
def calls : List AutoSync.VapiCall :=
  [call1, call2, call3]

end Demo

/-!
Theorems.  First the generic facts about the sort models, then the claim
theorems with their witnesses and counterexamples.
-/

namespace JsRt

theorem insertDesc_perm (key : α → Int) (x : α) (l : List α) :
    List.Perm (insertDesc key x l) (x :: l) := by
  induction l with
  | nil => rfl
  | cons y ys ih =>
    simp only [insertDesc]
    by_cases h : key y ≤ key x
    · simp [h]
    · simp only [h, if_false]
      exact (ih.cons y).trans (List.Perm.swap x y ys)

theorem sortDesc_perm (key : α → Int) (l : List α) : List.Perm (sortDesc key l) l := by
  induction l with
  | nil => rfl
  | cons y ys ih => exact (insertDesc_perm key y (sortDesc key ys)).trans (ih.cons y)

theorem insertDesc_pairwise (key : α → Int) (x : α) (l : List α)
    (h : l.Pairwise (fun a b => key b ≤ key a)) :
    (insertDesc key x l).Pairwise (fun a b => key b ≤ key a) := by
  induction l with
  | nil => simp [insertDesc]
  | cons y ys ih =>
    rcases List.pairwise_cons.mp h with ⟨hy, hys⟩
    simp only [insertDesc]
    by_cases hxy : key y ≤ key x
    · rw [if_pos hxy]
      refine List.pairwise_cons.mpr ⟨?_, h⟩
      intro b hb
      rcases List.mem_cons.mp hb with rfl | hb
      · exact hxy
      · exact (hy b hb).trans hxy
    · rw [if_neg hxy]
      refine List.pairwise_cons.mpr ⟨?_, ih hys⟩
      intro b hb
      rcases List.mem_cons.mp ((insertDesc_perm key x ys).mem_iff.mp hb) with rfl | hb
      · exact le_of_lt (lt_of_not_le hxy)
      · exact hy b hb

theorem sortDesc_pairwise (key : α → Int) (l : List α) :
    (sortDesc key l).Pairwise (fun a b => key b ≤ key a) := by
  induction l with
  | nil => simp [sortDesc]
  | cons y ys ih => exact insertDesc_pairwise key y (sortDesc key ys) ih

/-- With pairwise-distinct keys, the descending sort is strictly
descending. -/
theorem sortDesc_strict (key : α → Int) (l : List α) (h : (l.map key).Nodup) :
    (sortDesc key l).Pairwise (fun a b => key b < key a) := by
  have hperm : List.Perm ((sortDesc key l).map key) (l.map key) := (sortDesc_perm key l).map key
  have hnd : ((sortDesc key l).map key).Nodup := hperm.nodup_iff.mpr h
  have hne : (sortDesc key l).Pairwise (fun a b => key a ≠ key b) :=
    (List.pairwise_map.mp hnd)
  have hle := sortDesc_pairwise key l
  exact (hle.and hne).imp (fun hab => lt_of_le_of_ne hab.1 (Ne.symm hab.2))

theorem insertByB_perm (le : α → α → Bool) (x : α) (l : List α) :
    List.Perm (insertByB le x l) (x :: l) := by
  induction l with
  | nil => rfl
  | cons y ys ih =>
    simp only [insertByB]
    by_cases h : le x y
    · simp [h]
    · simp only [h, if_false]
      exact (ih.cons y).trans (List.Perm.swap x y ys)

theorem sortByB_perm (le : α → α → Bool) (l : List α) : List.Perm (sortByB le l) l := by
  induction l with
  | nil => rfl
  | cons y ys ih => exact (insertByB_perm le y (sortByB le ys)).trans (ih.cons y)

theorem mem_sortByB (le : α → α → Bool) (l : List α) (x : α) :
    x ∈ sortByB le l ↔ x ∈ l :=
  (sortByB_perm le l).mem_iff

end JsRt

theorem parseTimestamp_eq_core (tz now : Int) (ts : String) :
    SyncSheetsToDb.parseTimestamp tz now ts =
      (SyncSheetsToDb.parseTimestampCore tz ts).getD now := by
  unfold SyncSheetsToDb.parseTimestamp SyncSheetsToDb.parseTimestampCore
  by_cases h : ts = ""
  · simp [h]
  · rw [if_neg h, if_neg h]
    cases SyncSheetsToDb.isoBranch tz ts with
    | some v => rfl
    | none =>
      cases JsRt.fmtSearch ts.data with
      | some f => rfl
      | none =>
        cases JsRt.slashSearch ts.data with
        | some m => rfl
        | none =>
          cases JsRt.jsDateParse tz ts with
          | some v => rfl
          | none => rfl

/-- C5: the timestamp normalizer is total — it is a function into instants,
never an error — and for every input it equals the value of its non-fallback
core when that parses, so the same input always yields the same parse outcome
independent of the clock; when no branch parses (the core is `none`,
including the empty string) it returns the current instant `now`. -/
theorem c5_normalizer_totality (tz now nowB : Int) (ts : String) :
    SyncSheetsToDb.parseTimestamp tz now ts =
      (SyncSheetsToDb.parseTimestampCore tz ts).getD now ∧
    (SyncSheetsToDb.parseTimestampCore tz ts = none →
      SyncSheetsToDb.parseTimestamp tz now ts = now) ∧
    (SyncSheetsToDb.parseTimestampCore tz ts ≠ none →
      SyncSheetsToDb.parseTimestamp tz now ts = SyncSheetsToDb.parseTimestamp tz nowB ts) := by
  refine ⟨parseTimestamp_eq_core tz now ts, ?_, ?_⟩
  · intro h0
    rw [parseTimestamp_eq_core tz now ts, h0]
    rfl
  · intro h0
    rw [parseTimestamp_eq_core tz now ts, parseTimestamp_eq_core tz nowB ts]
    cases hc : SyncSheetsToDb.parseTimestampCore tz ts with
    | none => exact absurd hc h0
    | some v => rfl

/-- Witness for C5 at concrete inputs: unparseable text falls back to the
supplied current instant, and a parseable text is clock-independent. -/
theorem c5_normalizer_totality_witness :
    SyncSheetsToDb.parseTimestamp 0 999 "not a date at all" = 999 ∧
    SyncSheetsToDb.parseTimestamp 0 123 "15 Jan 2026, 3:38 pm" =
      SyncSheetsToDb.parseTimestamp 0 999 "15 Jan 2026, 3:38 pm" :=
  ⟨(c5_normalizer_totality 0 999 0 "not a date at all").2.1 (by decide),
   (c5_normalizer_totality 0 123 999 "15 Jan 2026, 3:38 pm").2.2 (by decide)⟩

/-- C6 fails as stated: the formatted branch hands the captured year to the
`Date` constructor, whose `MakeFullYear` rule maps year arguments 0-99 to
1900 + year.  The matched input `"15 Jan 0099, 3:38 pm"` (year capture 0099,
value 99) therefore yields the 1999 instant, not the instant of the literal
year 99 the claim prescribes. -/
theorem c6_counterexample :
    JsRt.fmtSearch ("15 Jan 0099, 3:38 pm").data =
      some ⟨15, 0, 99, 3, 38, none, some true⟩ ∧
    SyncSheetsToDb.parseTimestamp 0 0 "15 Jan 0099, 3:38 pm" =
      JsRt.jsLocalEpoch 0 1999 0 15 15 38 0 0 ∧
    SyncSheetsToDb.parseTimestamp 0 0 "15 Jan 0099, 3:38 pm" ≠
      JsRt.jsLocalEpoch 0 99 0 15 15 38 0 0 := by
  refine ⟨rfl, rfl, by decide⟩

/-- C6 amended: when the first (ISO) branch does not fire and the formatted
regex matches, the normalizer builds the instant through the `Date`
constructor from the captured numeric fields — day, month index, minute and
optional seconds literal; the year literal except that captures 0000-0099
denote 1900 + year (the constructor's `MakeFullYear` rule) — with the
12-hour conversion obeying: 12am maps to hour 0, 12pm stays 12, pm adds 12
to any hour other than 12, and am (or no marker) leaves other hours
unchanged. -/
theorem c6_formatted_branch (tz now : Int) (ts : String) (f : JsRt.FmtMatch)
    (hne : ts ≠ "") (hiso : SyncSheetsToDb.isoBranch tz ts = none)
    (hfmt : JsRt.fmtSearch ts.data = some f) :
    SyncSheetsToDb.parseTimestamp tz now ts =
      JsRt.jsDateCtor tz f.year f.mon f.day (SyncSheetsToDb.hour24 f.ampm f.hour)
        f.minute (f.second.getD 0) 0 ∧
    (100 ≤ f.year → JsRt.jsFullYear f.year = f.year) ∧
    (f.year ≤ 99 → JsRt.jsFullYear f.year = 1900 + (f.year : Int)) ∧
    (f.ampm = some false → f.hour = 12 → SyncSheetsToDb.hour24 f.ampm f.hour = 0) ∧
    (f.ampm = some true → f.hour = 12 → SyncSheetsToDb.hour24 f.ampm f.hour = 12) ∧
    (f.ampm = some true → f.hour ≠ 12 → SyncSheetsToDb.hour24 f.ampm f.hour = f.hour + 12) ∧
    (f.ampm = some false → f.hour ≠ 12 → SyncSheetsToDb.hour24 f.ampm f.hour = f.hour) ∧
    (f.ampm = none → SyncSheetsToDb.hour24 f.ampm f.hour = f.hour) := by
  refine ⟨?_, ?_, ?_, ?_, ?_, ?_, ?_, ?_⟩
  · unfold SyncSheetsToDb.parseTimestamp
    rw [if_neg hne, hiso, hfmt]
    rfl
  · intro hy
    simp only [JsRt.jsFullYear, ite_eq_right_iff]
    omega
  · intro hy
    have hyes : 0 ≤ (f.year : Int) ∧ (f.year : Int) ≤ 99 := by omega
    simp only [JsRt.jsFullYear, if_pos hyes]
  · intro ha hh
    simp [SyncSheetsToDb.hour24, ha, hh]
  · intro ha hh
    simp [SyncSheetsToDb.hour24, ha, hh]
  · intro ha hh
    simp [SyncSheetsToDb.hour24, ha, hh]
  · intro ha hh
    simp [SyncSheetsToDb.hour24, ha, hh]
  · intro ha
    simp [SyncSheetsToDb.hour24, ha]

/-- Witness for the amended C6 at concrete inputs: `12:05 am` on 15 Jan 2026
is built through the constructor with hour 0 and the literal year (2026 is
at least 100, so `MakeFullYear` keeps it). -/
theorem c6_formatted_branch_witness :
    SyncSheetsToDb.parseTimestamp 0 999 "15 Jan 2026, 12:05 am" =
      JsRt.jsDateCtor 0 2026 0 15 (SyncSheetsToDb.hour24 (some false) 12) 5 0 0 ∧
    JsRt.jsFullYear 2026 = 2026 ∧
    SyncSheetsToDb.hour24 (some false) 12 = 0 := by
  have h := c6_formatted_branch 0 999 "15 Jan 2026, 12:05 am"
    ⟨15, 0, 2026, 12, 5, none, some false⟩ (by decide) (by decide) (by decide)
  exact ⟨h.1, h.2.1 (by decide), h.2.2.2.1 rfl rfl⟩

/-- C3: for a well-formed payload (truthy `studentName`), when exactly one of
the two store writes fails the endpoint still responds with the success body,
the failed store's flag is false and the succeeded store's flag is true; the
failing write leaves its store untouched while the other store still receives
its row — neither write blocks or rolls back the other. -/
theorem c3_dual_write_independence (now : Int) (p : WebhookRoute.Payload)
    (dbFails sheetFails : Bool) (db : List Db.VivaRow) (sheet : List (List String))
    (hname : JsRt.jsOrStr p.studentName "" ≠ "") (hone : dbFails ≠ sheetFails) :
    (WebhookRoute.POST now p dbFails sheetFails db sheet).resp =
      WebhookRoute.Resp.ok (!dbFails) (!sheetFails)
        (WebhookRoute.message (!dbFails) (!sheetFails)) ∧
    (dbFails = true →
      (WebhookRoute.POST now p dbFails sheetFails db sheet).db = db ∧
      (WebhookRoute.POST now p dbFails sheetFails db sheet).sheet =
        sheet ++ [WebhookRoute.sheetRowOf now p]) ∧
    (sheetFails = true →
      (WebhookRoute.POST now p dbFails sheetFails db sheet).sheet = sheet ∧
      (WebhookRoute.POST now p dbFails sheetFails db sheet).db =
        db ++ [WebhookRoute.dbRowOf now (Db.nextId db) p]) := by
  refine ⟨?_, ?_, ?_⟩
  · simp [WebhookRoute.POST, hname]
  · intro hdb
    subst hdb
    have hsheet : sheetFails = false := by
      cases sheetFails
      · rfl
      · exact absurd rfl hone
    subst hsheet
    simp [WebhookRoute.POST, hname]
  · intro hsh
    subst hsh
    have hdb : dbFails = false := by
      cases dbFails
      · rfl
      · exact absurd rfl hone
    subst hdb
    simp [WebhookRoute.POST, hname]

/-- Witness for C3 at a concrete input: the database write fails, the sheet
write succeeds, the response is still a success with flags false/true, and
the sheet gained exactly the new row. -/
theorem c3_dual_write_independence_witness :
    (WebhookRoute.POST 1768471895724 Demo.payload1 true false [] []).resp =
      WebhookRoute.Resp.ok false true (WebhookRoute.message false true) ∧
    (WebhookRoute.POST 1768471895724 Demo.payload1 true false [] []).db = [] ∧
    (WebhookRoute.POST 1768471895724 Demo.payload1 true false [] []).sheet =
      [WebhookRoute.sheetRowOf 1768471895724 Demo.payload1] := by
  have h := c3_dual_write_independence 1768471895724 Demo.payload1 true false [] []
    (by decide) (by decide)
  exact ⟨h.1, (h.2.1 rfl).1, (h.2.1 rfl).2⟩

/-- C10 (implicit): the ingestion endpoint stamps the stored result with the
server's arrival instant.  The response and both stores are unchanged under
any caller-supplied `timestamp` field; when the sheet write succeeds the
appended row's first cell is the ISO rendering of the arrival instant, and
when the database write succeeds the inserted row's timestamp column is the
arrival instant itself. -/
theorem c10_server_side_timestamp (now : Int) (p : WebhookRoute.Payload)
    (dbFails sheetFails : Bool) (db : List Db.VivaRow) (sheet : List (List String))
    (t : Option String) (hname : JsRt.jsOrStr p.studentName "" ≠ "") :
    WebhookRoute.POST now { p with timestamp := t } dbFails sheetFails db sheet =
      WebhookRoute.POST now p dbFails sheetFails db sheet ∧
    (sheetFails = false →
      (WebhookRoute.POST now p dbFails sheetFails db sheet).sheet =
        sheet ++ [WebhookRoute.sheetRowOf now p] ∧
      (WebhookRoute.sheetRowOf now p).head? = some (JsRt.jsToISOString now)) ∧
    (dbFails = false →
      (WebhookRoute.POST now p dbFails sheetFails db sheet).db =
        db ++ [WebhookRoute.dbRowOf now (Db.nextId db) p] ∧
      (WebhookRoute.dbRowOf now (Db.nextId db) p).timestamp = now) := by
  refine ⟨?_, ?_, ?_⟩
  · simp [WebhookRoute.POST, WebhookRoute.sheetRowOf, WebhookRoute.dbRowOf]
  · intro hsh
    subst hsh
    exact ⟨by simp [WebhookRoute.POST, hname], rfl⟩
  · intro hdb
    subst hdb
    exact ⟨by simp [WebhookRoute.POST, hname], rfl⟩

/-- Witness for C10 at a concrete input: two payloads differing only in the
caller-supplied timestamp field produce identical outcomes, and the stored
rows carry the arrival instant. -/
theorem c10_server_side_timestamp_witness :
    WebhookRoute.POST 1768471895724
        { Demo.payload1 with timestamp := some "2001-02-03T04:05:06.000Z" }
        false false [] [] =
      WebhookRoute.POST 1768471895724 Demo.payload1 false false [] [] ∧
    (WebhookRoute.POST 1768471895724 Demo.payload1 false false [] []).sheet =
      [WebhookRoute.sheetRowOf 1768471895724 Demo.payload1] ∧
    (WebhookRoute.sheetRowOf 1768471895724 Demo.payload1).head? =
      some (JsRt.jsToISOString 1768471895724) ∧
    (WebhookRoute.dbRowOf 1768471895724 (Db.nextId []) Demo.payload1).timestamp =
      1768471895724 := by
  have h := c10_server_side_timestamp 1768471895724 Demo.payload1 false false [] []
    (some "2001-02-03T04:05:06.000Z") (by decide)
  exact ⟨h.1, by simpa using (h.2.1 rfl).1, (h.2.1 rfl).2, (h.2.2 rfl).2⟩

/-- C1 (evaluation at the failing input): the full-replace cycle is not
atomic.  With one pre-existing relational row, a successful sheet pull of one
valid row, and a thrown first insert, the cycle ends with a 500 response and
an empty `viva_results` table — the truncation committed, the insert did not
— contradicting the required non-destructiveness property (the table held a
row before the cycle and must not end it empty). -/
theorem c1_full_replace_not_atomic :
    [Demo.dbRow1] ≠ ([] : List Db.VivaRow) ∧
    (SyncResultsRoute.POST 0 0 true (some [Demo.sheetRow1]) [true] [Demo.dbRow1]).table
      = [] ∧
    (SyncResultsRoute.POST 0 0 true (some [Demo.sheetRow1]) [true] [Demo.dbRow1]).resp
      = SyncResultsRoute.Resp.err 500 "Failed to sync results" := by
  refine ⟨by decide, ?_, ?_⟩ <;> rfl

theorem sortDesc_length (key : α → Int) (l : List α) :
    (JsRt.sortDesc key l).length = l.length :=
  (JsRt.sortDesc_perm key l).length_eq

/-- C2 fails as stated: with the Relational Store unreachable (the query
throws) and the Spreadsheet Store holding three valid rows, the route returns
the 500 error of its outer catch — not a `google_sheets` response — although
the sheet read would have produced three results. -/
theorem c2_unreachable_db_counterexample :
    VivaResultsRoute.GET 0 none true (some Demo.sheetWithHeader) =
      VivaResultsRoute.Resp.err 500 "Internal server error" ∧
    (VivaResultsRoute.GET 0 none true (some Demo.sheetWithHeader)).sourceOf = none ∧
    (LibSheets.fetchVivaResults 0 true (some Demo.sheetWithHeader)).toOption.map
      List.length = some 3 := by
  refine ⟨rfl, rfl, ?_⟩
  rfl

/-- C2 amended: a nonempty relational query result is served exclusively as
source `database` with its row count; an empty result falls back to the live
sheet read, served as source `google_sheets` with count equal to the number
of sheet data rows (header excluded, e.g. three rows give count 3); but an
unreachable Relational Store yields a 500 error — the sheet fallback covers
only the empty-table case, not the thrown query. -/
theorem c2_read_path_policy (tz : Int) (table : List Db.VivaRow) (cfg : Bool)
    (sheetFetch : Option (List (List String))) (rows : List (List String))
    (data : List LibSheets.VivaResultL) :
    (table ≠ [] →
      VivaResultsRoute.GET tz (some table) cfg sheetFetch =
        VivaResultsRoute.Resp.okDb
          ((JsRt.sortDesc (fun r => r.timestamp) table).map VivaResultsRoute.mkView)
          table.length ∧
      (VivaResultsRoute.GET tz (some table) cfg sheetFetch).sourceOf = some "database") ∧
    (LibSheets.fetchVivaResults tz cfg sheetFetch = .ok data →
      VivaResultsRoute.GET tz (some []) cfg sheetFetch =
        VivaResultsRoute.Resp.okSheets data data.length) ∧
    (1 < rows.length →
      (VivaResultsRoute.GET tz (some []) true (some rows)).countOf =
        some (rows.length - 1) ∧
      (VivaResultsRoute.GET tz (some []) true (some rows)).sourceOf =
        some "google_sheets") ∧
    VivaResultsRoute.GET tz none cfg sheetFetch =
      VivaResultsRoute.Resp.err 500 "Internal server error" := by
  have h0 : JsRt.sortDesc (fun r : Db.VivaRow => r.timestamp) ([] : List Db.VivaRow)
      = [] := rfl
  refine ⟨?_, ?_, ?_, rfl⟩
  · intro hne
    have hpos : 0 < table.length := List.length_pos.mpr hne
    have hlen : (JsRt.sortDesc (fun r : Db.VivaRow => r.timestamp) table).length
        = table.length := sortDesc_length _ table
    constructor
    · simp only [VivaResultsRoute.GET, hlen, if_pos hpos]
    · simp only [VivaResultsRoute.GET, hlen, if_pos hpos, VivaResultsRoute.Resp.sourceOf]
  · intro hfetch
    simp only [VivaResultsRoute.GET, h0, List.length_nil]
    rw [if_neg (lt_irrefl 0), hfetch]
  · intro hr
    have hnot : ¬ rows.length ≤ 1 := by omega
    have hfetch : LibSheets.fetchVivaResults tz true (some rows) =
        .ok (JsRt.sortDesc (LibSheets.sortKeyL tz)
          ((rows.drop 1).enum.map (fun p => LibSheets.mkResult p.1 p.2))) := by
      simp [LibSheets.fetchVivaResults, hnot]
    have hlen : (JsRt.sortDesc (LibSheets.sortKeyL tz)
        ((rows.drop 1).enum.map (fun p => LibSheets.mkResult p.1 p.2))).length
        = rows.length - 1 := by
      rw [sortDesc_length, List.length_map, List.enum_length, List.length_drop]
    constructor
    · simp only [VivaResultsRoute.GET, h0, List.length_nil]
      rw [if_neg (lt_irrefl 0), hfetch]
      simp only [VivaResultsRoute.Resp.countOf, hlen]
    · simp only [VivaResultsRoute.GET, h0, List.length_nil]
      rw [if_neg (lt_irrefl 0), hfetch]
      rfl

/-- Witness for C2 at concrete inputs: one relational row is served from the
database; an empty table with a three-row sheet is served from the sheets
with count 3; an unreachable database is a 500. -/
theorem c2_read_path_policy_witness :
    (VivaResultsRoute.GET 0 (some [Demo.dbRow1]) true none).sourceOf =
      some "database" ∧
    (VivaResultsRoute.GET 0 (some []) true (some Demo.sheetWithHeader)).countOf =
      some 3 ∧
    (VivaResultsRoute.GET 0 (some []) true (some Demo.sheetWithHeader)).sourceOf =
      some "google_sheets" ∧
    VivaResultsRoute.GET 0 none true (some Demo.sheetWithHeader) =
      VivaResultsRoute.Resp.err 500 "Internal server error" := by
  have h := c2_read_path_policy 0 [Demo.dbRow1] true none Demo.sheetWithHeader []
  have h2 := c2_read_path_policy 0 [] true (some Demo.sheetWithHeader)
    Demo.sheetWithHeader []
  exact ⟨(h.1 (by decide)).2, (h2.2.2.1 (by decide)).1, (h2.2.2.1 (by decide)).2,
    h.2.2.2⟩

theorem takeWhile_append_all (p : α → Bool) (l m : List α)
    (h : ∀ c ∈ l, p c = true) : (l ++ m).takeWhile p = l ++ m.takeWhile p := by
  induction l with
  | nil => simp
  | cons c cs ih =>
    have hc : p c = true := h c (by simp)
    simp only [List.cons_append, List.takeWhile_cons, hc, if_true]
    rw [ih (fun x hx => h x (by simp [hx]))]

theorem firstDigitRun_split (pre run post : List Char)
    (hpre : ∀ c ∈ pre, c.isDigit = false) (hne : run ≠ [])
    (hrun : ∀ c ∈ run, c.isDigit = true)
    (hpost : ∀ c ∈ post.take 1, c.isDigit = false) :
    JsRt.firstDigitRun (pre ++ (run ++ post)) = some run := by
  induction pre with
  | nil =>
    cases run with
    | nil => exact absurd rfl hne
    | cons r rs =>
      have hr : r.isDigit = true := hrun r (by simp)
      have hposttw : post.takeWhile Char.isDigit = [] := by
        cases post with
        | nil => rfl
        | cons d ds =>
          have hd : d.isDigit = false := hpost d (by simp)
          simp [List.takeWhile_cons, hd]
      have hrs : (rs ++ post).takeWhile Char.isDigit = rs := by
        rw [takeWhile_append_all Char.isDigit rs post
          (fun x hx => hrun x (by simp [hx])), hposttw, List.append_nil]
      simp [JsRt.firstDigitRun, hr, hrs]
  | cons c cs ih =>
    have hc : c.isDigit = false := hpre c (by simp)
    simp only [List.cons_append, JsRt.firstDigitRun, hc]
    exact ih (fun x hx => hpre x (by simp [hx]))

theorem firstDigitRun_none (l : List Char) (h : ∀ c ∈ l, c.isDigit = false) :
    JsRt.firstDigitRun l = none := by
  induction l with
  | nil => rfl
  | cons c cs ih =>
    have hc : c.isDigit = false := h c (by simp)
    simp only [JsRt.firstDigitRun, hc]
    exact ih (fun x hx => h x (by simp [hx]))

/-- C7 fails as stated for the score parser of `src/lib/sheets.ts`: the text
`"Score: 75"` contains the digit run 75 (its first integer), yet `parseScore`
returns 0, because that implementation only recognizes an `N/100` pattern or
a leading integer. -/
theorem c7_counterexample :
    LibSheets.parseScore "Score: 75" = 0 ∧
    JsRt.firstDigitRun ("Score: 75").data = some ['7', '5'] ∧
    JsRt.digitsVal ['7', '5'] = 75 :=
  ⟨rfl, rfl, rfl⟩

/-- C7 amended: the first-integer extractors — `parseScore` and
`parseQuestionsCount` of `lib/api/sheets.ts` and the sync route's inline
extraction — return the first integer of any text containing a digit run and
0 on digit-free text; the `parseScore` of `lib/sheets.ts`, however, returns
the numerator of an `N/100` occurrence or a leading integer only, and yields
0 on text such as `"Score: 75"` whose first integer is not leading. -/
theorem c7_first_integer_extraction :
    (∀ (pre run post : List Char),
      (∀ c ∈ pre, c.isDigit = false) → run ≠ [] → (∀ c ∈ run, c.isDigit = true) →
      (∀ c ∈ post.take 1, c.isDigit = false) →
      ApiSheets.parseScore (String.mk (pre ++ (run ++ post))) = JsRt.digitsVal run ∧
      ApiSheets.parseQuestionsCount (String.mk (pre ++ (run ++ post))) =
        JsRt.digitsVal run ∧
      SyncResultsRoute.numExtract (some (String.mk (pre ++ (run ++ post)))) =
        (JsRt.digitsVal run : Int)) ∧
    (∀ s : String, (∀ c ∈ s.data, c.isDigit = false) →
      ApiSheets.parseScore s = 0 ∧ ApiSheets.parseQuestionsCount s = 0 ∧
      SyncResultsRoute.numExtract (some s) = 0) ∧
    LibSheets.parseScore "Score: 75" = 0 ∧
    LibSheets.parseScore "75/100" = 75 ∧
    LibSheets.parseScore "8 questions" = 8 := by
  refine ⟨?_, ?_, rfl, rfl, rfl⟩
  · intro pre run post hpre hne hrun hpost
    have hdata : (String.mk (pre ++ (run ++ post))).data = pre ++ (run ++ post) := rfl
    have hsne : String.mk (pre ++ (run ++ post)) ≠ "" := by
      intro h
      have hl : pre ++ (run ++ post) = ([] : List Char) := by
        have := congrArg String.data h
        simpa using this
      rcases List.append_eq_nil.mp hl with ⟨-, h2⟩
      rcases List.append_eq_nil.mp h2 with ⟨h3, -⟩
      exact hne h3
    have hfdr := firstDigitRun_split pre run post hpre hne hrun hpost
    refine ⟨?_, ?_, ?_⟩
    · simp only [ApiSheets.parseScore, if_neg hsne, hdata, hfdr]
    · simp only [ApiSheets.parseQuestionsCount, if_neg hsne, hdata, hfdr]
    · simp only [SyncResultsRoute.numExtract, if_neg hsne, hdata, hfdr]
  · intro s hnd
    have hfdr := firstDigitRun_none s.data hnd
    by_cases hs : s = ""
    · subst hs
      exact ⟨rfl, rfl, rfl⟩
    · exact ⟨by simp only [ApiSheets.parseScore, if_neg hs, hfdr],
        by simp only [ApiSheets.parseQuestionsCount, if_neg hs, hfdr],
        by simp only [SyncResultsRoute.numExtract, if_neg hs, hfdr]⟩

/-- Witness for C7 at concrete inputs: `"75/100"` gives 75, `"8 questions"`
gives 8, `"Score: 75"` gives 75 through the first-integer extractors, and
digit-free text gives 0. -/
theorem c7_first_integer_extraction_witness :
    ApiSheets.parseScore "75/100" = 75 ∧
    ApiSheets.parseQuestionsCount "8 questions" = 8 ∧
    SyncResultsRoute.numExtract (some "Score: 75") = 75 ∧
    ApiSheets.parseScore "no digits here" = 0 := by
  have h1 := c7_first_integer_extraction.1 [] ['7', '5'] ['/', '1', '0', '0']
    (by decide) (by decide) (by decide) (by decide)
  have h2 := c7_first_integer_extraction.1 [] ['8']
    [' ', 'q', 'u', 'e', 's', 't', 'i', 'o', 'n', 's']
    (by decide) (by decide) (by decide) (by decide)
  have h3 := c7_first_integer_extraction.1 ['S', 'c', 'o', 'r', 'e', ':', ' ']
    ['7', '5'] [] (by decide) (by decide) (by decide) (by decide)
  have h4 := c7_first_integer_extraction.2.1 "no digits here" (by decide)
  exact ⟨h1.1, h2.2.1, h3.2.2, h4.1⟩

/-- C4: each results read path returns rows in strictly descending order of
the normalized instant, comparing parsed instants and never raw timestamp
text.  Conjuncts: (a) the relational branch of `GET /viva-results` orders by
the stored timestamp instant (the `ORDER BY timestamp DESC` list that the
route serves); (b) `fetchVivaResults` of `lib/sheets.ts` returns the sorted
permutation of the row-mapped results, strictly descending in the `Date`
parse of the timestamp text; (c) `getVivaResults` of `lib/api/sheets.ts`
does the same under its inline normalizer comparator.  The hypotheses state
the claim's premise — pairwise-distinct normalized instants — and that every
timestamp parses to an instant (no `NaN` key, where ECMAScript sorting is
unspecified and the model fixes a value). -/
theorem c4_descending_order (tz : Int) (table : List Db.VivaRow)
    (rows rowsA : List (List String))
    (hdb : (table.map (fun r => r.timestamp)).Nodup)
    (hrows : 1 < rows.length)
    (hkeysL : (((rows.drop 1).enum.map (fun p => LibSheets.mkResult p.1 p.2)).map
      (LibSheets.sortKeyL tz)).Nodup)
    (hsomeL : ∀ r ∈ (rows.drop 1).enum.map (fun p => LibSheets.mkResult p.1 p.2),
      (JsRt.jsDateParse tz r.dateTime).isSome = true)
    (hkeysA : ((rowsA.enum.map (fun p => ApiSheets.mkResult p.1 p.2)).map
      (ApiSheets.sortKey tz)).Nodup)
    (hsomeA : ∀ r ∈ rowsA.enum.map (fun p => ApiSheets.mkResult p.1 p.2),
      (ApiSheets.parseTimestamp tz r.timestamp).isSome = true) :
    (JsRt.sortDesc (fun r : Db.VivaRow => r.timestamp) table).Pairwise
      (fun a b => b.timestamp < a.timestamp) ∧
    (LibSheets.fetchVivaResults tz true (some rows) =
      .ok (JsRt.sortDesc (LibSheets.sortKeyL tz)
        ((rows.drop 1).enum.map (fun p => LibSheets.mkResult p.1 p.2))) ∧
     (JsRt.sortDesc (LibSheets.sortKeyL tz)
        ((rows.drop 1).enum.map (fun p => LibSheets.mkResult p.1 p.2))).Pairwise
        (fun a b => LibSheets.sortKeyL tz b < LibSheets.sortKeyL tz a) ∧
     List.Perm (JsRt.sortDesc (LibSheets.sortKeyL tz)
        ((rows.drop 1).enum.map (fun p => LibSheets.mkResult p.1 p.2)))
       ((rows.drop 1).enum.map (fun p => LibSheets.mkResult p.1 p.2))) ∧
    ((ApiSheets.getVivaResults tz rowsA).Pairwise
      (fun a b => ApiSheets.sortKey tz b < ApiSheets.sortKey tz a) ∧
     List.Perm (ApiSheets.getVivaResults tz rowsA)
       (rowsA.enum.map (fun p => ApiSheets.mkResult p.1 p.2))) := by
  refine ⟨?_, ⟨?_, ?_, ?_⟩, ?_, ?_⟩
  · exact JsRt.sortDesc_strict (fun r : Db.VivaRow => r.timestamp) table hdb
  · have hnot : ¬ rows.length ≤ 1 := by omega
    simp [LibSheets.fetchVivaResults, hnot]
  · exact JsRt.sortDesc_strict (LibSheets.sortKeyL tz) _ hkeysL
  · exact JsRt.sortDesc_perm (LibSheets.sortKeyL tz) _
  · exact JsRt.sortDesc_strict (ApiSheets.sortKey tz) _ hkeysA
  · exact JsRt.sortDesc_perm (ApiSheets.sortKey tz) _

/-- Witness for C4 at concrete inputs, including the specification's example
pair: the row stamped `"15 Jan 2026, 3:38 pm"` (15:38 UTC at offset 0) is
returned before the row stamped `"2026-01-15T10:11:35.724Z"` on both
spreadsheet paths, and the ordering theorem applies to the demo table and
sheet. -/
theorem c4_descending_order_witness :
    ((LibSheets.fetchVivaResults 0 true (some Demo.sheetWithHeader)).toOption.map
      (List.map (fun r => r.dateTime))) =
      some ["15 Jan 2026, 3:38 pm", "15 Jan 2026, 3:37 pm",
            "2026-01-15T10:11:35.724Z"] ∧
    (ApiSheets.getVivaResults 0 [Demo.sheetRow1, Demo.sheetRow2]).map
      (fun r => r.timestamp) =
      ["15 Jan 2026, 3:38 pm", "2026-01-15T10:11:35.724Z"] ∧
    (JsRt.sortDesc (fun r : Db.VivaRow => r.timestamp) [Demo.dbRow1]).Pairwise
      (fun a b => b.timestamp < a.timestamp) ∧
    (JsRt.sortDesc (LibSheets.sortKeyL 0)
      ((Demo.sheetWithHeader.drop 1).enum.map
        (fun p => LibSheets.mkResult p.1 p.2))).Pairwise
      (fun a b => LibSheets.sortKeyL 0 b < LibSheets.sortKeyL 0 a) := by
  have h := c4_descending_order 0 [Demo.dbRow1] Demo.sheetWithHeader
    [Demo.sheetRow1, Demo.sheetRow2] (by decide) (by decide) (by decide) (by decide)
    (by decide) (by decide)
  exact ⟨rfl, rfl, h.1, h.2.1.2.1⟩

/-- C9 fails as stated for `GET /students`: its `getStudentsFromResults`
groups by the raw `studentEmail`, so two results whose emails differ only in
letter case produce two separate summaries (and no status field exists on
this path). -/
theorem c9_counterexample :
    (ApiSheets.getStudentsFromResults 0 [Demo.resA1, Demo.resA2]).length = 2 ∧
    JsRt.strLower Demo.resA1.studentEmail = JsRt.strLower Demo.resA2.studentEmail ∧
    Demo.resA1.studentEmail ≠ Demo.resA2.studentEmail := by
  refine ⟨rfl, rfl, by decide⟩

/-- C9 amended: the case-insensitive merge together with the
`pending`/`at_risk`/`active` status rule is implemented by
`fetchStudentSummaries` of `lib/sheets.ts`: two results with emails equal up
to letter case are merged into a single summary whose count is 2 and whose
average is the rounded mean of both scores, and every summary's status is
`pending` on zero vivas, `at_risk` below average 50, `active` otherwise.
`getStudentsFromResults` of `lib/api/sheets.ts` — the `GET /students` path —
instead keys on the raw email: results with unequal raw emails are never
merged. -/
theorem c9_student_grouping (tz : Int) :
    (∀ r1 r2 : LibSheets.VivaResultL,
      JsRt.strLower r1.email = JsRt.strLower r2.email →
      (LibSheets.fetchStudentSummaries [r1, r2]).length = 1 ∧
      ∀ s ∈ LibSheets.fetchStudentSummaries [r1, r2],
        s.vivasCompleted = 2 ∧
        s.averageScore = JsRt.jsRoundInt (r1.score + r2.score) 2) ∧
    (∀ (rs : List LibSheets.VivaResultL) (s : LibSheets.StudentSummary),
      s ∈ LibSheets.fetchStudentSummaries rs →
      s.status = (if s.vivasCompleted = 0 then "pending"
        else if s.averageScore < 50 then "at_risk" else "active")) ∧
    (∀ r1 r2 : ApiSheets.VivaResultA, r1.studentEmail ≠ r2.studentEmail →
      (ApiSheets.getStudentsFromResults tz [r1, r2]).length = 2) := by
  refine ⟨?_, ?_, ?_⟩
  · intro r1 r2 h
    have hstep : LibSheets.fetchStudentSummaries [r1, r2] =
        [LibSheets.mkSummary 0
          (LibSheets.updSummary (LibSheets.updSummary (LibSheets.initSummary r1) r1) r2)] := by
      simp [LibSheets.fetchStudentSummaries, LibSheets.stepSummary, h,
        JsRt.sortByB, JsRt.insertByB]
    refine ⟨by rw [hstep]; rfl, ?_⟩
    intro s hs
    rw [hstep] at hs
    rcases List.mem_singleton.mp hs with rfl
    constructor
    · simp [LibSheets.mkSummary, LibSheets.updSummary, LibSheets.initSummary]
    · simp [LibSheets.mkSummary, LibSheets.updSummary, LibSheets.initSummary,
        JsRt.jsRoundInt]
  · intro rs s hs
    rcases List.mem_map.mp ((JsRt.mem_sortByB _ _ s).mp hs) with ⟨p, hp, rfl⟩
    rfl
  · intro r1 r2 hne
    simp [ApiSheets.getStudentsFromResults, ApiSheets.stepStudent, hne]

/-- Witness for C9 at concrete inputs: the two case-variant results merge
into one summary with two vivas and average 50 (rounded mean of 70 and 30),
whose status is `active`; the raw-keyed path keeps them separate. -/
theorem c9_student_grouping_witness :
    (LibSheets.fetchStudentSummaries [Demo.resL1, Demo.resL2]).length = 1 ∧
    (∀ s ∈ LibSheets.fetchStudentSummaries [Demo.resL1, Demo.resL2],
      s.vivasCompleted = 2 ∧ s.averageScore = JsRt.jsRoundInt (70 + 30) 2) ∧
    (ApiSheets.getStudentsFromResults 0 [Demo.resA1, Demo.resA2]).length = 2 := by
  have h := (c9_student_grouping 0).1 Demo.resL1 Demo.resL2 (by decide)
  have h3 := (c9_student_grouping 0).2.2 Demo.resA1 Demo.resA2 (by decide)
  exact ⟨h.1, h.2, h3⟩

theorem map_id_of_mem (f : α → α) (l : List α) (h : ∀ x ∈ l, f x = x) :
    l.map f = l := by
  induction l with
  | nil => rfl
  | cons x xs ih =>
    rw [List.map_cons, h x (by simp), ih (fun y hy => h y (by simp [hy]))]

theorem upsertStep_length (tz : Int) (t : List AutoSync.VapiRow) (c : AutoSync.VapiCall) :
    t.length ≤ (AutoSync.upsertStep tz t c).length := by
  by_cases h1 : c.status = "ended"
  · by_cases h2 : t.any (fun r =>
      r.vapiCallId = (AutoSync.extractVivaData tz c).vapiCallId)
    · simp [AutoSync.upsertStep, h1, h2]
    · simp [AutoSync.upsertStep, h1, h2]
  · simp [AutoSync.upsertStep, h1]

theorem syncFromVapi_length (tz : Int) (calls : List AutoSync.VapiCall)
    (t : List AutoSync.VapiRow) :
    t.length ≤ (AutoSync.syncFromVapi tz calls t).length := by
  induction calls generalizing t with
  | nil => exact le_refl _
  | cons c cs ih =>
    exact le_trans (upsertStep_length tz t c) (ih (AutoSync.upsertStep tz t c))

theorem upsertStep_establishes (tz : Int) (t : List AutoSync.VapiRow)
    (c : AutoSync.VapiCall) (hend : c.status = "ended") :
    (∃ r ∈ AutoSync.upsertStep tz t c, r.vapiCallId = c.id) ∧
    (∀ r ∈ AutoSync.upsertStep tz t c, r.vapiCallId = c.id →
      r.data = AutoSync.extractVivaData tz c) := by
  have hid : (AutoSync.extractVivaData tz c).vapiCallId = c.id := rfl
  by_cases hany : t.any (fun r =>
      r.vapiCallId = (AutoSync.extractVivaData tz c).vapiCallId)
  · have hstep : AutoSync.upsertStep tz t c =
        t.map (fun r => if r.vapiCallId = (AutoSync.extractVivaData tz c).vapiCallId then
          { r with data := AutoSync.extractVivaData tz c } else r) := by
      simp [AutoSync.upsertStep, hend, hany]
    rcases List.any_eq_true.mp hany with ⟨r0, hr0, hkey⟩
    rw [decide_eq_true_eq] at hkey
    constructor
    · refine ⟨{ r0 with data := AutoSync.extractVivaData tz c }, ?_, hkey.trans hid⟩
      rw [hstep]
      exact List.mem_map.mpr ⟨r0, hr0, by rw [if_pos hkey]⟩
    · intro r hr hrk
      rw [hstep] at hr
      rcases List.mem_map.mp hr with ⟨r1, hr1, hf⟩
      by_cases hk1 : r1.vapiCallId = (AutoSync.extractVivaData tz c).vapiCallId
      · rw [if_pos hk1] at hf
        rw [← hf]
      · rw [if_neg hk1] at hf
        rw [← hf] at hrk
        rw [hid] at hk1
        exact absurd hrk hk1
  · have hstep : AutoSync.upsertStep tz t c =
        t ++ [{ rowId := AutoSync.nextRowId t,
                vapiCallId := (AutoSync.extractVivaData tz c).vapiCallId,
                data := AutoSync.extractVivaData tz c }] := by
      simp [AutoSync.upsertStep, hend, hany]
    constructor
    · refine ⟨{ rowId := AutoSync.nextRowId t,
                vapiCallId := (AutoSync.extractVivaData tz c).vapiCallId,
                data := AutoSync.extractVivaData tz c }, ?_, hid⟩
      rw [hstep]
      simp
    · have hforall : ∀ r ∈ t,
          ¬ r.vapiCallId = (AutoSync.extractVivaData tz c).vapiCallId := by
        intro r hr hk
        exact hany (List.any_eq_true.mpr ⟨r, hr, decide_eq_true hk⟩)
      intro r hr hrk
      rw [hstep] at hr
      rcases List.mem_append.mp hr with hmem | hmem
      · exact absurd (hrk.trans hid.symm) (hforall r hmem)
      · rcases List.mem_singleton.mp hmem with rfl
        rfl

theorem upsertStep_preserves (tz : Int) (t : List AutoSync.VapiRow)
    (c : AutoSync.VapiCall) (k : String) (d : AutoSync.VivaData)
    (hk : c.status = "ended" → c.id ≠ k)
    (hex : ∃ r ∈ t, r.vapiCallId = k)
    (hall : ∀ r ∈ t, r.vapiCallId = k → r.data = d) :
    (∃ r ∈ AutoSync.upsertStep tz t c, r.vapiCallId = k) ∧
    (∀ r ∈ AutoSync.upsertStep tz t c, r.vapiCallId = k → r.data = d) := by
  by_cases hend : c.status = "ended"
  · have hne : (AutoSync.extractVivaData tz c).vapiCallId ≠ k := hk hend
    by_cases hany : t.any (fun r =>
        r.vapiCallId = (AutoSync.extractVivaData tz c).vapiCallId)
    · have hstep : AutoSync.upsertStep tz t c =
          t.map (fun r => if r.vapiCallId = (AutoSync.extractVivaData tz c).vapiCallId then
            { r with data := AutoSync.extractVivaData tz c } else r) := by
        simp [AutoSync.upsertStep, hend, hany]
      rw [hstep]
      constructor
      · rcases hex with ⟨r0, hr0, hk0⟩
        have hne0 : ¬ r0.vapiCallId = (AutoSync.extractVivaData tz c).vapiCallId := by
          rw [hk0]
          exact fun he => hne he.symm
        exact ⟨r0, List.mem_map.mpr ⟨r0, hr0, by rw [if_neg hne0]⟩, hk0⟩
      · intro r hr hrk
        rcases List.mem_map.mp hr with ⟨r1, hr1, hf⟩
        by_cases hk1 : r1.vapiCallId = (AutoSync.extractVivaData tz c).vapiCallId
        · rw [if_pos hk1] at hf
          rw [← hf] at hrk
          exact absurd (hk1.symm.trans hrk) hne
        · rw [if_neg hk1] at hf
          rw [← hf]
          rw [← hf] at hrk
          exact hall r1 hr1 hrk
    · have hstep : AutoSync.upsertStep tz t c =
          t ++ [{ rowId := AutoSync.nextRowId t,
                  vapiCallId := (AutoSync.extractVivaData tz c).vapiCallId,
                  data := AutoSync.extractVivaData tz c }] := by
        simp [AutoSync.upsertStep, hend, hany]
      rw [hstep]
      constructor
      · rcases hex with ⟨r0, hr0, hk0⟩
        exact ⟨r0, List.mem_append_left _ hr0, hk0⟩
      · intro r hr hrk
        rcases List.mem_append.mp hr with hmem | hmem
        · exact hall r hmem hrk
        · rcases List.mem_singleton.mp hmem with rfl
          exact absurd hrk hne
  · have hstep : AutoSync.upsertStep tz t c = t := by
      simp [AutoSync.upsertStep, hend]
    rw [hstep]
    exact ⟨hex, hall⟩

theorem syncFromVapi_preserves (tz : Int) (calls : List AutoSync.VapiCall)
    (k : String) (d : AutoSync.VivaData)
    (hk : ∀ c ∈ calls, c.status = "ended" → c.id ≠ k)
    (t : List AutoSync.VapiRow)
    (hex : ∃ r ∈ t, r.vapiCallId = k)
    (hall : ∀ r ∈ t, r.vapiCallId = k → r.data = d) :
    (∃ r ∈ AutoSync.syncFromVapi tz calls t, r.vapiCallId = k) ∧
    (∀ r ∈ AutoSync.syncFromVapi tz calls t, r.vapiCallId = k → r.data = d) := by
  induction calls generalizing t with
  | nil => exact ⟨hex, hall⟩
  | cons c cs ih =>
    have hstep := upsertStep_preserves tz t c k d (hk c (by simp)) hex hall
    exact ih (fun x hx => hk x (by simp [hx])) (AutoSync.upsertStep tz t c)
      hstep.1 hstep.2

theorem upsertStep_noop (tz : Int) (t : List AutoSync.VapiRow) (c : AutoSync.VapiCall)
    (hend : c.status = "ended")
    (hex : ∃ r ∈ t, r.vapiCallId = c.id)
    (hall : ∀ r ∈ t, r.vapiCallId = c.id → r.data = AutoSync.extractVivaData tz c) :
    AutoSync.upsertStep tz t c = t := by
  have hid : (AutoSync.extractVivaData tz c).vapiCallId = c.id := rfl
  have hany : t.any (fun r =>
      r.vapiCallId = (AutoSync.extractVivaData tz c).vapiCallId) = true := by
    rcases hex with ⟨r0, hr0, hk0⟩
    exact List.any_eq_true.mpr ⟨r0, hr0, decide_eq_true (by rw [hk0, hid])⟩
  have hstep : AutoSync.upsertStep tz t c =
      t.map (fun r => if r.vapiCallId = (AutoSync.extractVivaData tz c).vapiCallId then
        { r with data := AutoSync.extractVivaData tz c } else r) := by
    simp [AutoSync.upsertStep, hend, hany]
  rw [hstep]
  apply map_id_of_mem
  intro r hr
  by_cases hk1 : r.vapiCallId = (AutoSync.extractVivaData tz c).vapiCallId
  · rw [if_pos hk1]
    have hdata : r.data = AutoSync.extractVivaData tz c := hall r hr (hk1.trans hid)
    rw [← hdata]
  · rw [if_neg hk1]

/-- C8: the idempotent-upsert reconciliation variant is idempotent — running
one cycle a second time against the same pull (whose ended calls carry
pairwise-distinct identifiers, the natural key the table makes unique)
leaves the table exactly as after the first run: same rows, same content,
existing rows updated in place; and the variant never deletes rows (the
table can only grow). -/
theorem c8_idempotent_upsert (tz : Int) (calls : List AutoSync.VapiCall)
    (t : List AutoSync.VapiRow) (h : (AutoSync.endedIds calls).Nodup) :
    AutoSync.syncFromVapi tz calls (AutoSync.syncFromVapi tz calls t) =
      AutoSync.syncFromVapi tz calls t ∧
    t.length ≤ (AutoSync.syncFromVapi tz calls t).length := by
  induction calls generalizing t with
  | nil => exact ⟨rfl, le_refl _⟩
  | cons c cs ih =>
    have hfold : ∀ u : List AutoSync.VapiRow,
        AutoSync.syncFromVapi tz (c :: cs) u =
          AutoSync.syncFromVapi tz cs (AutoSync.upsertStep tz u c) := fun u => rfl
    by_cases hend : c.status = "ended"
    · have hids : AutoSync.endedIds (c :: cs) = c.id :: AutoSync.endedIds cs := by
        simp [AutoSync.endedIds, hend]
      rw [hids] at h
      rcases List.nodup_cons.mp h with ⟨hnotin, hnd⟩
      have hk : ∀ x ∈ cs, x.status = "ended" → x.id ≠ c.id := by
        intro x hx hxe hxeq
        exact hnotin (by
          simp only [AutoSync.endedIds, List.mem_map, List.mem_filter]
          exact ⟨x, ⟨hx, by simp [hxe]⟩, hxeq⟩)
      have hest := upsertStep_establishes tz t c hend
      have hinv := syncFromVapi_preserves tz cs c.id (AutoSync.extractVivaData tz c)
        hk (AutoSync.upsertStep tz t c) hest.1 hest.2
      have hno := upsertStep_noop tz
        (AutoSync.syncFromVapi tz cs (AutoSync.upsertStep tz t c)) c hend hinv.1 hinv.2
      constructor
      · rw [hfold t, hfold (AutoSync.syncFromVapi tz cs (AutoSync.upsertStep tz t c)),
          hno]
        exact (ih (AutoSync.upsertStep tz t c) hnd).1
      · rw [hfold t]
        exact le_trans (upsertStep_length tz t c)
          (syncFromVapi_length tz cs (AutoSync.upsertStep tz t c))
    · have hskip : ∀ u : List AutoSync.VapiRow, AutoSync.upsertStep tz u c = u := by
        intro u
        simp [AutoSync.upsertStep, hend]
      have hnd : (AutoSync.endedIds cs).Nodup := by
        have : AutoSync.endedIds (c :: cs) = AutoSync.endedIds cs := by
          simp [AutoSync.endedIds, hend]
        rwa [this] at h
      constructor
      · rw [hfold t, hskip t, hfold (AutoSync.syncFromVapi tz cs t), hskip]
        exact (ih t hnd).1
      · rw [hfold t, hskip t]
        exact (ih t hnd).2

/-- Witness for C8 at a concrete pull: two ended calls with distinct
identifiers and one live call, against an empty table — the second run
changes nothing and the row count never shrinks. -/
theorem c8_idempotent_upsert_witness :
    AutoSync.syncFromVapi 0 Demo.calls (AutoSync.syncFromVapi 0 Demo.calls []) =
      AutoSync.syncFromVapi 0 Demo.calls [] ∧
    (0 : Nat) ≤ (AutoSync.syncFromVapi 0 Demo.calls []).length := by
  have h := c8_idempotent_upsert 0 Demo.calls [] (by decide)
  exact ⟨h.1, h.2⟩
